import Mathlib

/-!
# Shallow embedding of the libsignal-client ciphertext message framing layer

Definitions translated from `src/rust/protocol/src/protocol.rs`,
`src/rust/protocol/src/error.rs` and `src/rust/protocol/src/identity_key.rs`.
Bytes are modelled as `List Nat` (each element intended `< 256`); machine
integers are `Nat` with explicit `% 2^32` where wrap-around matters.

External collaborators not present under `src/` (the prost protobuf codec and
its `.proto` field layout, the curve25519 key primitives, HMAC-SHA256,
signatures) are modelled from the spec; each such definition carries a doc
comment starting with `Modelled from the spec:`.
-/

namespace Libsignal

/-- The error taxonomy, translated from `error.rs` restricted to the variants
the framing layer produces.  Payloads follow the arguments actually supplied
at the construction sites in `protocol.rs` (`error.rs` additionally declares a
`MessageVersionType` kind tag on the three version errors that no
construction site in `protocol.rs` supplies; see the analysis of that
divergence in the theorems below).  The `prost::DecodeError` payload of
`ProtobufDecodingError` is elided. -/
inductive SignalProtocolError where
  | InvalidArgument (msg : String)
  | ProtobufDecodingError
  | ProtobufEncodingError
  | InvalidProtobufEncoding
  | CiphertextMessageTooShort (len : Nat)
  | LegacyCiphertextVersion (version : Nat)
  | UnrecognizedCiphertextVersion (version : Nat)
  | UnrecognizedMessageVersion (value : Nat)
  | NoKeyTypeIdentifier
  | BadKeyType (raw : Nat)
  | BadKeyLength (keyType : Nat) (len : Nat)
  | SignatureValidationFailed
  | InvalidMacKeyLength (len : Nat)
  deriving DecidableEq, Repr

/-- `CIPHERTEXT_MESSAGE_CURRENT_VERSION` from `consts.rs` (referenced
throughout `protocol.rs`; its value 3 is fixed by the spec's
"Protocol version — a small closed enumeration {2 = legacy, 3 = current}"). -/
def CIPHERTEXT_MESSAGE_CURRENT_VERSION : Nat := 3

/-- `MessageVersion` enum from `protocol.rs`: `Version2 = 2`,
`Version3 = CIPHERTEXT_MESSAGE_CURRENT_VERSION`. -/
inductive MessageVersion where
  | version2
  | version3
  deriving DecidableEq, Repr

/-- The `#[repr(u8)]` discriminant of `MessageVersion`
(`num_enum::IntoPrimitive`). -/
def MessageVersion.toU8 : MessageVersion → Nat
  | .version2 => 2
  | .version3 => CIPHERTEXT_MESSAGE_CURRENT_VERSION

/-- `Default for MessageVersion` from `protocol.rs`: `Version3`. -/
def MessageVersion.default : MessageVersion := .version3

/-- `TryFrom<u8> for MessageVersion` (via `num_enum::TryFromPrimitive`),
with the failure mapped through `From<TryFromPrimitiveError<MessageVersion>>
for SignalProtocolError` in `protocol.rs`, which produces
`UnrecognizedMessageVersion(number)`. -/
def MessageVersion.fromU8 (n : Nat) : Except SignalProtocolError MessageVersion :=
  if n = 2 then .ok .version2
  else if n = CIPHERTEXT_MESSAGE_CURRENT_VERSION then .ok .version3
  else .error (.UnrecognizedMessageVersion n)

/-- Modelled from the spec: the external elliptic-curve public key collaborator
("a public/private elliptic-curve key type offering `serialize()/deserialize()`",
§6; its `curve.rs` implementation is not under `src/`).  A key holds 32 bytes
of point data; its serialized form is a key-type marker byte (0x05) followed
by the point data, 33 bytes in all (the spec fixes `signing_key (33 bytes)`). -/
structure PublicKey where
  keyData : List Nat
  deriving DecidableEq, Repr

/-- The key-type marker byte of the single supported key type. -/
def DJB_TYPE : Nat := 5

/-- Modelled from the spec: `PublicKey::serialize` — the 33-byte form
`type_byte || point_data`. -/
def PublicKey.serialize (k : PublicKey) : List Nat :=
  DJB_TYPE :: k.keyData

/-- Modelled from the spec: `PublicKey::try_from(&[u8])` — rejects an empty
buffer (`NoKeyTypeIdentifier`), an unknown type byte (`BadKeyType`), and a
wrong total length (`BadKeyLength`), per the spec's
"`BadKeyType` / `BadKeyLength` / key-decode errors — surfaced by the
key-primitive collaborator" (§7). -/
def PublicKey.decode (value : List Nat) : Except SignalProtocolError PublicKey :=
  match value with
  | [] => .error .NoKeyTypeIdentifier
  | t :: rest =>
    if t = DJB_TYPE then
      if rest.length = 32 then .ok ⟨rest⟩
      else .error (.BadKeyLength DJB_TYPE (rest.length + 1))
    else .error (.BadKeyType t)

/-- Modelled from the spec: the private half of the elliptic-curve key pair,
opaque to this layer. -/
structure PrivateKey where
  seed : Nat
  deriving DecidableEq, Repr

/-- `IdentityKey` from `identity_key.rs`: a wrapper for `PublicKey`. -/
structure IdentityKey where
  public_key : PublicKey
  deriving DecidableEq, Repr

/-- `IdentityKey::serialize`: delegates to `PublicKey::serialize`. -/
def IdentityKey.serialize (k : IdentityKey) : List Nat :=
  k.public_key.serialize

/-- `IdentityKey::decode` / `TryFrom<&[u8]> for IdentityKey`:
`PublicKey::try_from` then wrap. -/
def IdentityKey.decode (value : List Nat) : Except SignalProtocolError IdentityKey :=
  (PublicKey.decode value).map (fun pk => ⟨pk⟩)

/-- `uuid::Uuid`: 16 bytes. -/
structure Uuid where
  uuidBytes : List Nat
  deriving DecidableEq, Repr

/-- `Uuid::from_slice`: succeeds exactly on 16-byte input. -/
def Uuid.fromSlice (value : List Nat) : Option Uuid :=
  if value.length = 16 then some ⟨value⟩ else none

/-! ## Protobuf wire encoding

Modelled from the spec: "all multi-field bodies use a length-delimited
structured encoding; exact field numbering is an implementation detail of that
encoding but presence/absence semantics below are normative" (§6).  The prost
codec and the `.proto` schemas are not under `src/`, so the standard protobuf
base-128 varint / tagged-field encoding is modelled here, with wire type 0
(varint) for integer fields and wire type 2 (length-delimited) for byte
fields; unknown fields are skipped, a repeated field keeps the last value. -/

/-- Structural-recursion worker for `encVarint`; `fuel ≥ n` suffices since
the value shrinks by a factor of 128 every step. -/
def encVarintAux (fuel n : Nat) : List Nat :=
  match fuel with
  | 0 => [n]
  | fuel + 1 =>
    if n < 128 then [n] else (n % 128 + 128) :: encVarintAux fuel (n / 128)

/-- Base-128 little-endian varint encoding (continuation bit on every byte but
the last). -/
def encVarint (n : Nat) : List Nat :=
  encVarintAux n n

/-- Varint decoding: returns the value and the remaining bytes, or `none` on
a truncated varint. -/
def readVarint : List Nat → Option (Nat × List Nat)
  | [] => none
  | b :: rest =>
    if b < 128 then some (b, rest)
    else
      match readVarint rest with
      | some (v, rest') => some (v * 128 + (b - 128), rest')
      | none => none

/-- A decoded protobuf field value: a varint or a length-delimited payload. -/
inductive FieldVal where
  | vint (n : Nat)
  | bytes (l : List Nat)
  deriving DecidableEq, Repr

/-- The field-decoding loop: reads `key = field_number <<< 3 ||| wire_type`
fields until the buffer is exhausted, feeding each known-relevant field to
`apply` (which returns `none` on a wire-type mismatch for a known field).
Wire types 1 (64-bit) and 5 (32-bit) are skipped, group wire types are a
decode error.  `fuel` bounds the iteration count; any `fuel` exceeding the
byte count is sufficient since every iteration consumes at least one byte. -/
def runDecode {S : Type} (apply : S → Nat → FieldVal → Option S) :
    Nat → S → List Nat → Option S
  | 0, _, _ => none
  | fuel + 1, s, stream =>
    if stream = [] then some s
    else
      match readVarint stream with
      | none => none
      | some (key, rest) =>
        match key % 8 with
        | 0 =>
          match readVarint rest with
          | none => none
          | some (v, rest') =>
            match apply s (key / 8) (.vint v) with
            | none => none
            | some s' => runDecode apply fuel s' rest'
        | 2 =>
          match readVarint rest with
          | none => none
          | some (len, rest') =>
            if len ≤ rest'.length then
              match apply s (key / 8) (.bytes (rest'.take len)) with
              | none => none
              | some s' => runDecode apply fuel s' (rest'.drop len)
            else none
        | 1 =>
          if 8 ≤ rest.length then runDecode apply fuel s (rest.drop 8) else none
        | 5 =>
          if 4 ≤ rest.length then runDecode apply fuel s (rest.drop 4) else none
        | _ => none

/-- Encoding of a varint-typed field: key byte(s) then the value. -/
def encVintField (num v : Nat) : List Nat :=
  encVarint (8 * num) ++ encVarint v

/-- Encoding of a length-delimited field: key, length, payload. -/
def encBytesField (num : Nat) (payload : List Nat) : List Nat :=
  encVarint (8 * num + 2) ++ encVarint payload.length ++ payload

/-- The byte encoding of one tagged field. -/
def encodeField : Nat × FieldVal → List Nat
  | (num, .vint v) => encVintField num v
  | (num, .bytes l) => encBytesField num l

/-- The byte encoding of a list of tagged fields, in order. -/
def encodeFields (fs : List (Nat × FieldVal)) : List Nat :=
  (fs.map encodeField).flatten

/-- Field list assembled from an optional varint field. -/
def optVint (num : Nat) : Option Nat → List (Nat × FieldVal)
  | none => []
  | some v => [(num, .vint v)]

/-- Field list assembled from an optional length-delimited field. -/
def optBytes (num : Nat) : Option (List Nat) → List (Nat × FieldVal)
  | none => []
  | some l => [(num, .bytes l)]

/-- Modelled from the spec: `proto::wire::SignalMessage` — the structured body
`body{ratchet_key, counter, previous_counter?, ciphertext}` (§6), every field
optional at the encoding level. -/
structure ProtoSignalMessage where
  ratchet_key : Option (List Nat) := none
  counter : Option Nat := none
  previous_counter : Option Nat := none
  ciphertext : Option (List Nat) := none
  deriving DecidableEq, Repr

/-- Field assignment for `ProtoSignalMessage` decoding: ratchet_key = 1 (bytes),
counter = 2 (uint32), previous_counter = 3 (uint32), ciphertext = 4 (bytes);
unknown numbers are skipped, and a known number with the wrong wire type is a
decode error.  uint32 fields wrap at `2^32`. -/
def ProtoSignalMessage.applyField (s : ProtoSignalMessage) (num : Nat) (v : FieldVal) :
    Option ProtoSignalMessage :=
  match num, v with
  | 1, .bytes b => some { s with ratchet_key := some b }
  | 1, .vint _ => none
  | 2, .vint n => some { s with counter := some (n % 2 ^ 32) }
  | 2, .bytes _ => none
  | 3, .vint n => some { s with previous_counter := some (n % 2 ^ 32) }
  | 3, .bytes _ => none
  | 4, .bytes b => some { s with ciphertext := some b }
  | 4, .vint _ => none
  | _, _ => some s

/-- The tagged-field list of a `ProtoSignalMessage`, present fields in
field-number order. -/
def ProtoSignalMessage.fields (m : ProtoSignalMessage) : List (Nat × FieldVal) :=
  optBytes 1 m.ratchet_key ++ optVint 2 m.counter ++
  optVint 3 m.previous_counter ++ optBytes 4 m.ciphertext

/-- `proto::wire::SignalMessage::encode` (prost), modelled from the spec. -/
def ProtoSignalMessage.encode (m : ProtoSignalMessage) : List Nat :=
  encodeFields m.fields

/-- `proto::wire::SignalMessage::decode` (prost), modelled from the spec; a
malformed buffer surfaces as `ProtobufDecodingError` (the `?` conversion
`From<prost::DecodeError>` in `error.rs`). -/
def ProtoSignalMessage.decode (body : List Nat) :
    Except SignalProtocolError ProtoSignalMessage :=
  match runDecode ProtoSignalMessage.applyField (body.length + 1) {} body with
  | some s => .ok s
  | none => .error .ProtobufDecodingError

/-- Modelled from the spec: `proto::wire::PreKeySignalMessage` — the body
`body{registration_id?, pre_key_id?, signed_pre_key_id, base_key,
identity_key, inner_message_bytes}` (§6). -/
structure ProtoPreKeySignalMessage where
  registration_id : Option Nat := none
  pre_key_id : Option Nat := none
  signed_pre_key_id : Option Nat := none
  base_key : Option (List Nat) := none
  identity_key : Option (List Nat) := none
  message : Option (List Nat) := none
  deriving DecidableEq, Repr

/-- Field assignment for `ProtoPreKeySignalMessage`: pre_key_id = 1,
base_key = 2, identity_key = 3, message = 4, registration_id = 5,
signed_pre_key_id = 6. -/
def ProtoPreKeySignalMessage.applyField (s : ProtoPreKeySignalMessage) (num : Nat)
    (v : FieldVal) : Option ProtoPreKeySignalMessage :=
  match num, v with
  | 1, .vint n => some { s with pre_key_id := some (n % 2 ^ 32) }
  | 1, .bytes _ => none
  | 2, .bytes b => some { s with base_key := some b }
  | 2, .vint _ => none
  | 3, .bytes b => some { s with identity_key := some b }
  | 3, .vint _ => none
  | 4, .bytes b => some { s with message := some b }
  | 4, .vint _ => none
  | 5, .vint n => some { s with registration_id := some (n % 2 ^ 32) }
  | 5, .bytes _ => none
  | 6, .vint n => some { s with signed_pre_key_id := some (n % 2 ^ 32) }
  | 6, .bytes _ => none
  | _, _ => some s

/-- The tagged-field list of a `ProtoPreKeySignalMessage`, present fields in
the struct-literal order used by `PreKeySignalMessage::new`. -/
def ProtoPreKeySignalMessage.fields (m : ProtoPreKeySignalMessage) :
    List (Nat × FieldVal) :=
  optVint 5 m.registration_id ++ optVint 1 m.pre_key_id ++
  optVint 6 m.signed_pre_key_id ++ optBytes 2 m.base_key ++
  optBytes 3 m.identity_key ++ optBytes 4 m.message

/-- `proto::wire::PreKeySignalMessage::encode` (prost), modelled from the
spec. -/
def ProtoPreKeySignalMessage.encode (m : ProtoPreKeySignalMessage) : List Nat :=
  encodeFields m.fields

/-- `proto::wire::PreKeySignalMessage::decode` (prost), modelled from the
spec. -/
def ProtoPreKeySignalMessage.decode (body : List Nat) :
    Except SignalProtocolError ProtoPreKeySignalMessage :=
  match runDecode ProtoPreKeySignalMessage.applyField (body.length + 1) {} body with
  | some s => .ok s
  | none => .error .ProtobufDecodingError

/-- Modelled from the spec: `proto::wire::SenderKeyMessage` — the body
`body{distribution_uuid[16], chain_id, iteration, ciphertext}` (§6). -/
structure ProtoSenderKeyMessage where
  distribution_uuid : Option (List Nat) := none
  chain_id : Option Nat := none
  iteration : Option Nat := none
  ciphertext : Option (List Nat) := none
  deriving DecidableEq, Repr

/-- Field assignment for `ProtoSenderKeyMessage`: distribution_uuid = 1,
chain_id = 2, iteration = 3, ciphertext = 4. -/
def ProtoSenderKeyMessage.applyField (s : ProtoSenderKeyMessage) (num : Nat)
    (v : FieldVal) : Option ProtoSenderKeyMessage :=
  match num, v with
  | 1, .bytes b => some { s with distribution_uuid := some b }
  | 1, .vint _ => none
  | 2, .vint n => some { s with chain_id := some (n % 2 ^ 32) }
  | 2, .bytes _ => none
  | 3, .vint n => some { s with iteration := some (n % 2 ^ 32) }
  | 3, .bytes _ => none
  | 4, .bytes b => some { s with ciphertext := some b }
  | 4, .vint _ => none
  | _, _ => some s

/-- The tagged-field list of a `ProtoSenderKeyMessage`. -/
def ProtoSenderKeyMessage.fields (m : ProtoSenderKeyMessage) :
    List (Nat × FieldVal) :=
  optBytes 1 m.distribution_uuid ++ optVint 2 m.chain_id ++
  optVint 3 m.iteration ++ optBytes 4 m.ciphertext

/-- `proto::wire::SenderKeyMessage::encode` (prost), modelled from the spec. -/
def ProtoSenderKeyMessage.encode (m : ProtoSenderKeyMessage) : List Nat :=
  encodeFields m.fields

/-- `proto::wire::SenderKeyMessage::decode` (prost), modelled from the spec. -/
def ProtoSenderKeyMessage.decode (body : List Nat) :
    Except SignalProtocolError ProtoSenderKeyMessage :=
  match runDecode ProtoSenderKeyMessage.applyField (body.length + 1) {} body with
  | some s => .ok s
  | none => .error .ProtobufDecodingError

/-- Modelled from the spec: `proto::wire::SenderKeyDistributionMessage` — the
body `body{distribution_uuid[16], chain_id, iteration, chain_key[32],
signing_key[33]}` (§6). -/
structure ProtoSenderKeyDistributionMessage where
  distribution_uuid : Option (List Nat) := none
  chain_id : Option Nat := none
  iteration : Option Nat := none
  chain_key : Option (List Nat) := none
  signing_key : Option (List Nat) := none
  deriving DecidableEq, Repr

/-- Field assignment for `ProtoSenderKeyDistributionMessage`:
distribution_uuid = 1, chain_id = 2, iteration = 3, chain_key = 4,
signing_key = 5. -/
def ProtoSenderKeyDistributionMessage.applyField
    (s : ProtoSenderKeyDistributionMessage) (num : Nat) (v : FieldVal) :
    Option ProtoSenderKeyDistributionMessage :=
  match num, v with
  | 1, .bytes b => some { s with distribution_uuid := some b }
  | 1, .vint _ => none
  | 2, .vint n => some { s with chain_id := some (n % 2 ^ 32) }
  | 2, .bytes _ => none
  | 3, .vint n => some { s with iteration := some (n % 2 ^ 32) }
  | 3, .bytes _ => none
  | 4, .bytes b => some { s with chain_key := some b }
  | 4, .vint _ => none
  | 5, .bytes b => some { s with signing_key := some b }
  | 5, .vint _ => none
  | _, _ => some s

/-- The tagged-field list of a `ProtoSenderKeyDistributionMessage`. -/
def ProtoSenderKeyDistributionMessage.fields
    (m : ProtoSenderKeyDistributionMessage) : List (Nat × FieldVal) :=
  optBytes 1 m.distribution_uuid ++ optVint 2 m.chain_id ++
  optVint 3 m.iteration ++ optBytes 4 m.chain_key ++ optBytes 5 m.signing_key

/-- `proto::wire::SenderKeyDistributionMessage::encode` (prost), modelled from
the spec. -/
def ProtoSenderKeyDistributionMessage.encode
    (m : ProtoSenderKeyDistributionMessage) : List Nat :=
  encodeFields m.fields

/-- `proto::wire::SenderKeyDistributionMessage::decode` (prost), modelled from
the spec. -/
def ProtoSenderKeyDistributionMessage.decode (body : List Nat) :
    Except SignalProtocolError ProtoSenderKeyDistributionMessage :=
  match runDecode ProtoSenderKeyDistributionMessage.applyField (body.length + 1)
      {} body with
  | some s => .ok s
  | none => .error .ProtobufDecodingError

/-! ## Authentication primitives -/

/-- Modelled from the spec: "HMAC with a 256-bit-output hash function, keyed
by the MAC key" (§4.3).  The `Hmac<Sha256>` primitive comes from the external
`hmac`/`sha2` crates, not from this repository's sources, so it is modelled as
a deterministic executable 32-byte-output keyed function; the framing layer
only relies on its determinism and output length.  Feeding it the
concatenation of the `update` calls models the incremental `Mac` interface. -/
def hmacSha256 (key message : List Nat) : List Nat :=
  (List.range 32).map (fun i =>
    ((key ++ 255 :: message).foldl
      (fun a b => (a * 131 + b + i + 1) % 65521) (i + 37)) % 256)

/-- `SignalMessage::MAC_LENGTH`. -/
def SignalMessage.MAC_LENGTH : Nat := 8

/-- `SignalMessage::compute_mac`: rejects a key whose length is not exactly
32 bytes with `InvalidMacKeyLength`, otherwise returns the first
`MAC_LENGTH` bytes of the HMAC over
`serialize(sender pub key) || serialize(receiver pub key) || message`.
(The `new_varkey` failure branch is unreachable: HMAC accepts any key
length.) -/
def computeMac (sender_identity_key receiver_identity_key : IdentityKey)
    (mac_key message : List Nat) : Except SignalProtocolError (List Nat) :=
  if mac_key.length ≠ 32 then .error (.InvalidMacKeyLength mac_key.length)
  else
    .ok ((hmacSha256 mac_key
      (sender_identity_key.serialize ++ receiver_identity_key.serialize ++
        message)).take SignalMessage.MAC_LENGTH)

/-- `SIGNATURE_LENGTH` from `consts.rs` (not under `src/`): the fixed length
of the asymmetric signature, 64 bytes. -/
def SIGNATURE_LENGTH : Nat := 64

/-- Modelled from the spec: the private key's
`calculate_signature(message, rng) → fixed-length signature` capability (§6).
The randomness source only feeds the signature nonce, so the deterministic
model ignores it; only the output length matters to the framing layer. -/
def calculateSignature (k : PrivateKey) (message : List Nat) : List Nat :=
  (List.range SIGNATURE_LENGTH).map (fun i =>
    (message.foldl (fun a b => (a * 257 + b) % 65519) (k.seed + i)) % 256)

/-- Modelled from the spec: the public key's
`verify(message, signature) → bool-or-error` signature-checking capability
(§6), a deterministic boolean predicate on (key, message, signature). -/
def verifySig (k : PublicKey) (message signature : List Nat) : Bool :=
  signature == (List.range SIGNATURE_LENGTH).map (fun i =>
    ((k.keyData ++ 254 :: message).foldl
      (fun a b => (a * 251 + b) % 65497) i) % 256)

/-! ## SignalMessage -/

/-- `SignalMessage` from `protocol.rs`. -/
structure SignalMessage where
  message_version : MessageVersion
  sender_ratchet_key : PublicKey
  counter : Nat
  previous_counter : Nat
  ciphertext : List Nat
  serialized : List Nat
  deriving DecidableEq, Repr

/-- `SignalMessage::new`: builds the protobuf body from the fields, packs
the version byte, computes the MAC over the version byte plus body, and
appends it. -/
def SignalMessage.new (message_version : MessageVersion) (mac_key : List Nat)
    (sender_ratchet_key : PublicKey) (counter previous_counter : Nat)
    (ciphertext : List Nat)
    (sender_identity_key receiver_identity_key : IdentityKey) :
    Except SignalProtocolError SignalMessage :=
  let message : ProtoSignalMessage :=
    { ratchet_key := some sender_ratchet_key.serialize
      counter := some counter
      previous_counter := some previous_counter
      ciphertext := some ciphertext }
  let version_byte :=
    ((message_version.toU8 &&& 15) <<< 4) ||| CIPHERTEXT_MESSAGE_CURRENT_VERSION
  let msg_for_mac := version_byte :: message.encode
  match computeMac sender_identity_key receiver_identity_key mac_key
      msg_for_mac with
  | .error e => .error e
  | .ok mac =>
    .ok { message_version, sender_ratchet_key, counter, previous_counter,
          ciphertext, serialized := msg_for_mac ++ mac }

/-- `SignalMessage::verify_mac`: recomputes the MAC over the stored
`serialized` bytes minus the trailing `MAC_LENGTH` bytes and compares it
(constant-time in the source, via `subtle::ConstantTimeEq`) with those
trailing stored bytes, returning the boolean outcome; a wrong-length key
propagates `compute_mac`'s error. -/
def SignalMessage.verify_mac (m : SignalMessage)
    (sender_identity_key receiver_identity_key : IdentityKey)
    (mac_key : List Nat) : Except SignalProtocolError Bool :=
  match computeMac sender_identity_key receiver_identity_key mac_key
      (m.serialized.take (m.serialized.length - SignalMessage.MAC_LENGTH)) with
  | .error e => .error e
  | .ok our_mac =>
    .ok (our_mac == m.serialized.drop
      (m.serialized.length - SignalMessage.MAC_LENGTH))

/-! ## The parse monad

Rust parsing code can, besides returning `Ok`/`Err`, abort by panicking on an
out-of-bounds index / slice or an underflowing `usize` subtraction.  To make
the no-panic property provable rather than assumed, every indexing operation
of the parse functions goes through checked operations in this three-valued
result type, with `panicked` the embedded image of a Rust panic. -/

inductive RResult (α : Type) where
  | ok : α → RResult α
  | err : SignalProtocolError → RResult α
  | panicked : RResult α
  deriving DecidableEq, Repr

instance : Monad RResult where
  pure := RResult.ok
  bind x f :=
    match x with
    | .ok a => f a
    | .err e => .err e
    | .panicked => .panicked

/-- The `?` operator on a `Result`: embeds `Except` into `RResult`. -/
def RResult.ofExcept {α : Type} : Except SignalProtocolError α → RResult α
  | .ok a => .ok a
  | .error e => .err e

/-- Rust `slice[i]`: panics when out of bounds. -/
def listIndex (l : List Nat) (i : Nat) : RResult Nat :=
  if h : i < l.length then .ok l[i] else .panicked

/-- Rust `usize` subtraction: panics on underflow. -/
def subUsize (a b : Nat) : RResult Nat :=
  if b ≤ a then .ok (a - b) else .panicked

/-- Rust `slice[a..b]`: panics unless `a ≤ b ≤ len`. -/
def sliceRange (l : List Nat) (a b : Nat) : RResult (List Nat) :=
  if a ≤ b ∧ b ≤ l.length then .ok ((l.take b).drop a) else .panicked

/-- Rust `slice[a..]`: panics unless `a ≤ len`. -/
def sliceFrom (l : List Nat) (a : Nat) : RResult (List Nat) :=
  if a ≤ l.length then .ok (l.drop a) else .panicked

/-- `Option::ok_or(InvalidProtobufEncoding)` followed by `?`, as used for
every protocol-mandatory field. -/
def mandatory {α : Type} : Option α → RResult α
  | none => .err .InvalidProtobufEncoding
  | some a => .ok a

/-! ## Parse functions (`TryFrom<&[u8]>` impls) -/

/-- The body-decoding tail of `TryFrom<&[u8]> for SignalMessage`
(`protocol.rs` 256–280), reached only when the version nibble equals the
current version; `message_version` is the nibble read from `value[0]`. -/
def SignalMessage.decodeBody (message_version : Nat) (value : List Nat) :
    RResult SignalMessage := do
  let mlen ← subUsize value.length SignalMessage.MAC_LENGTH
  let body ← sliceRange value 1 mlen
  let proto_structure ← RResult.ofExcept (ProtoSignalMessage.decode body)
  let srk ← mandatory proto_structure.ratchet_key
  let sender_ratchet_key ← RResult.ofExcept (PublicKey.decode srk)
  let counter ← mandatory proto_structure.counter
  let previous_counter := proto_structure.previous_counter.getD 0
  let ciphertext ← mandatory proto_structure.ciphertext
  let mv ← RResult.ofExcept (MessageVersion.fromU8 message_version)
  RResult.ok { message_version := mv, sender_ratchet_key, counter,
               previous_counter, ciphertext, serialized := value }

/-- `TryFrom<&[u8]> for SignalMessage` (`protocol.rs` 237–281): minimum
length check, version-nibble classification, then body decoding. -/
def SignalMessage.tryFrom (value : List Nat) : RResult SignalMessage :=
  if value.length < SignalMessage.MAC_LENGTH + 1 then
    .err (.CiphertextMessageTooShort value.length)
  else do
    let b0 ← listIndex value 0
    let message_version := b0 >>> 4
    if message_version < CIPHERTEXT_MESSAGE_CURRENT_VERSION then
      RResult.err (.LegacyCiphertextVersion message_version)
    else if message_version > CIPHERTEXT_MESSAGE_CURRENT_VERSION then
      RResult.err (.UnrecognizedCiphertextVersion message_version)
    else
      SignalMessage.decodeBody message_version value

/-! ## PreKeySignalMessage -/

/-- `PreKeySignalMessage` from `protocol.rs`. -/
structure PreKeySignalMessage where
  message_version : MessageVersion
  registration_id : Nat
  pre_key_id : Option Nat
  signed_pre_key_id : Nat
  base_key : PublicKey
  identity_key : IdentityKey
  message : SignalMessage
  serialized : List Nat
  deriving DecidableEq, Repr

/-- `PreKeySignalMessage::new`: encodes the protobuf body (the inner pairwise
message embedded as its serialized bytes) behind the packed version byte; no
authentication tag of its own. -/
def PreKeySignalMessage.new (message_version : MessageVersion)
    (registration_id : Nat) (pre_key_id : Option Nat)
    (signed_pre_key_id : Nat) (base_key : PublicKey)
    (identity_key : IdentityKey) (message : SignalMessage) :
    Except SignalProtocolError PreKeySignalMessage :=
  let proto_message : ProtoPreKeySignalMessage :=
    { registration_id := some registration_id
      pre_key_id := pre_key_id
      signed_pre_key_id := some signed_pre_key_id
      base_key := some base_key.serialize
      identity_key := some identity_key.serialize
      message := some message.serialized }
  let version_byte :=
    ((message_version.toU8 &&& 15) <<< 4) ||| CIPHERTEXT_MESSAGE_CURRENT_VERSION
  .ok { message_version, registration_id, pre_key_id, signed_pre_key_id,
        base_key, identity_key, message,
        serialized := version_byte :: proto_message.encode }

/-- The body-decoding tail of `TryFrom<&[u8]> for PreKeySignalMessage`
(`protocol.rs` 396–423): mandatory-field checks for `base_key`,
`identity_key`, `message`, `signed_pre_key_id` (in that order), then the
nested key/message parses; `registration_id` absent defaults to 0 and
`pre_key_id` stays optional. -/
def PreKeySignalMessage.decodeBody (message_version : Nat) (value : List Nat) :
    RResult PreKeySignalMessage := do
  let rest ← sliceFrom value 1
  let proto_structure ← RResult.ofExcept (ProtoPreKeySignalMessage.decode rest)
  let base_key_bytes ← mandatory proto_structure.base_key
  let identity_key_bytes ← mandatory proto_structure.identity_key
  let message_bytes ← mandatory proto_structure.message
  let signed_pre_key_id ← mandatory proto_structure.signed_pre_key_id
  let base_key ← RResult.ofExcept (PublicKey.decode base_key_bytes)
  let mv ← RResult.ofExcept (MessageVersion.fromU8 message_version)
  let identity_key ← RResult.ofExcept (IdentityKey.decode identity_key_bytes)
  let message ← SignalMessage.tryFrom message_bytes
  RResult.ok { message_version := mv,
               registration_id := proto_structure.registration_id.getD 0,
               pre_key_id := proto_structure.pre_key_id,
               signed_pre_key_id, base_key, identity_key, message,
               serialized := value }

/-- `TryFrom<&[u8]> for PreKeySignalMessage` (`protocol.rs` 376–424):
empty-buffer check, version-nibble classification, body decoding. -/
def PreKeySignalMessage.tryFrom (value : List Nat) : RResult PreKeySignalMessage :=
  if value.length < 1 then
    .err (.CiphertextMessageTooShort value.length)
  else do
    let b0 ← listIndex value 0
    let message_version := b0 >>> 4
    if message_version < CIPHERTEXT_MESSAGE_CURRENT_VERSION then
      RResult.err (.LegacyCiphertextVersion message_version)
    else if message_version > CIPHERTEXT_MESSAGE_CURRENT_VERSION then
      RResult.err (.UnrecognizedCiphertextVersion message_version)
    else
      PreKeySignalMessage.decodeBody message_version value

/-! ## SenderKeyMessage -/

/-- `SenderKeyMessage` from `protocol.rs`. -/
structure SenderKeyMessage where
  message_version : MessageVersion
  distribution_id : Uuid
  chain_id : Nat
  iteration : Nat
  ciphertext : List Nat
  serialized : List Nat
  deriving DecidableEq, Repr

/-- `SenderKeyMessage::new`: packs the current version into both nibbles of
the first byte, encodes the protobuf body, signs version byte plus body with
the distribution's private signing key and appends the fixed-length
signature; the stored logical version is `MessageVersion::default()`
(the randomness argument feeds only the signature nonce and is elided by the
deterministic signature model). -/
def SenderKeyMessage.new (distribution_id : Uuid) (chain_id iteration : Nat)
    (ciphertext : List Nat) (signature_key : PrivateKey) :
    Except SignalProtocolError SenderKeyMessage :=
  let proto_message : ProtoSenderKeyMessage :=
    { distribution_uuid := some distribution_id.uuidBytes
      chain_id := some chain_id
      iteration := some iteration
      ciphertext := some ciphertext }
  let pre_signature :=
    (((CIPHERTEXT_MESSAGE_CURRENT_VERSION &&& 15) <<< 4) |||
      CIPHERTEXT_MESSAGE_CURRENT_VERSION) :: proto_message.encode
  let signature := calculateSignature signature_key pre_signature
  .ok { message_version := MessageVersion.default, distribution_id, chain_id,
        iteration, ciphertext, serialized := pre_signature ++ signature }

/-- `SignatureVerifiable for SenderKeyMessage::verify_signature`
(`protocol.rs` 500–516): checks the trailing `SIGNATURE_LENGTH` stored bytes
against the preceding stored bytes with the distribution public key; a
mismatch is `SignatureValidationFailed`. -/
def SenderKeyMessage.verify_signature (m : SenderKeyMessage)
    (signature_key : PublicKey) : Except SignalProtocolError Unit :=
  if verifySig signature_key
      (m.serialized.take (m.serialized.length - SIGNATURE_LENGTH))
      (m.serialized.drop (m.serialized.length - SIGNATURE_LENGTH)) then
    .ok ()
  else .error .SignatureValidationFailed

/-- The body-decoding tail of `TryFrom<&[u8]> for SenderKeyMessage`
(`protocol.rs` 542–567). -/
def SenderKeyMessage.decodeBody (message_version : Nat) (value : List Nat) :
    RResult SenderKeyMessage := do
  let mlen ← subUsize value.length SIGNATURE_LENGTH
  let body ← sliceRange value 1 mlen
  let proto_structure ← RResult.ofExcept (ProtoSenderKeyMessage.decode body)
  let distribution_id ←
    mandatory (proto_structure.distribution_uuid.bind Uuid.fromSlice)
  let chain_id ← mandatory proto_structure.chain_id
  let iteration ← mandatory proto_structure.iteration
  let ciphertext ← mandatory proto_structure.ciphertext
  let mv ← RResult.ofExcept (MessageVersion.fromU8 message_version)
  RResult.ok { message_version := mv, distribution_id, chain_id, iteration,
               ciphertext, serialized := value }

/-- `TryFrom<&[u8]> for SenderKeyMessage` (`protocol.rs` 524–568). -/
def SenderKeyMessage.tryFrom (value : List Nat) : RResult SenderKeyMessage :=
  if value.length < 1 + SIGNATURE_LENGTH then
    .err (.CiphertextMessageTooShort value.length)
  else do
    let b0 ← listIndex value 0
    let message_version := b0 >>> 4
    if message_version < CIPHERTEXT_MESSAGE_CURRENT_VERSION then
      RResult.err (.LegacyCiphertextVersion message_version)
    else if message_version > CIPHERTEXT_MESSAGE_CURRENT_VERSION then
      RResult.err (.UnrecognizedCiphertextVersion message_version)
    else
      SenderKeyMessage.decodeBody message_version value

/-! ## SenderKeyDistributionMessage -/

/-- `SenderKeyDistributionMessage` from `protocol.rs`. -/
structure SenderKeyDistributionMessage where
  message_version : MessageVersion
  distribution_id : Uuid
  chain_id : Nat
  iteration : Nat
  chain_key : List Nat
  signing_key : PublicKey
  serialized : List Nat
  deriving DecidableEq, Repr

/-- `SenderKeyDistributionMessage::new`: packs the current version into both
nibbles of the first byte and encodes the protobuf body; carries no
authentication tag.  The chain key's length is *not* validated here. -/
def SenderKeyDistributionMessage.new (distribution_id : Uuid)
    (chain_id iteration : Nat) (chain_key : List Nat)
    (signing_key : PublicKey) :
    Except SignalProtocolError SenderKeyDistributionMessage :=
  let proto_message : ProtoSenderKeyDistributionMessage :=
    { distribution_uuid := some distribution_id.uuidBytes
      chain_id := some chain_id
      iteration := some iteration
      chain_key := some chain_key
      signing_key := some signing_key.serialize }
  let message_version := CIPHERTEXT_MESSAGE_CURRENT_VERSION
  let serialized :=
    (((message_version &&& 15) <<< 4) ||| message_version) ::
      proto_message.encode
  match MessageVersion.fromU8 message_version with
  | .error e => .error e
  | .ok mv =>
    .ok { message_version := mv, distribution_id, chain_id, iteration,
          chain_key, signing_key, serialized }

/-- The body-decoding tail of `TryFrom<&[u8]> for
SenderKeyDistributionMessage` (`protocol.rs` 677–711): mandatory-field
checks, then the fixed-length re-validation `chain_key.len() == 32 &&
signing_key.len() == 33`, then the signing-key parse. -/
def SenderKeyDistributionMessage.decodeBody (message_version : Nat)
    (value : List Nat) : RResult SenderKeyDistributionMessage := do
  let rest ← sliceFrom value 1
  let proto_structure ←
    RResult.ofExcept (ProtoSenderKeyDistributionMessage.decode rest)
  let distribution_id ←
    mandatory (proto_structure.distribution_uuid.bind Uuid.fromSlice)
  let chain_id ← mandatory proto_structure.chain_id
  let iteration ← mandatory proto_structure.iteration
  let chain_key ← mandatory proto_structure.chain_key
  let signing_key_bytes ← mandatory proto_structure.signing_key
  if chain_key.length ≠ 32 ∨ signing_key_bytes.length ≠ 33 then
    RResult.err .InvalidProtobufEncoding
  else do
    let signing_key ← RResult.ofExcept (PublicKey.decode signing_key_bytes)
    let mv ← RResult.ofExcept (MessageVersion.fromU8 message_version)
    RResult.ok { message_version := mv, distribution_id, chain_id, iteration,
                 chain_key, signing_key, serialized := value }

/-- `TryFrom<&[u8]> for SenderKeyDistributionMessage`
(`protocol.rs` 655–712): the structural minimum is `1 + 32 + 32` bytes. -/
def SenderKeyDistributionMessage.tryFrom (value : List Nat) :
    RResult SenderKeyDistributionMessage :=
  if value.length < 1 + 32 + 32 then
    .err (.CiphertextMessageTooShort value.length)
  else do
    let b0 ← listIndex value 0
    let message_version := b0 >>> 4
    if message_version < CIPHERTEXT_MESSAGE_CURRENT_VERSION then
      RResult.err (.LegacyCiphertextVersion message_version)
    else if message_version > CIPHERTEXT_MESSAGE_CURRENT_VERSION then
      RResult.err (.UnrecognizedCiphertextVersion message_version)
    else
      SenderKeyDistributionMessage.decodeBody message_version value

/-! ## Concrete test vectors (used by closed witness statements) -/

/-- Serialized bytes of a concrete pairwise message: version byte `0x33`,
protobuf body, 8-byte MAC tag. -/
def wSigBytes : List Nat :=
  [51, 10, 33] ++ (5 :: List.replicate 32 1) ++
    [16, 42, 24, 41, 34, 3, 1, 2, 3, 248, 103, 214, 69, 180, 35, 146, 1]

/-- The pairwise message whose serialized form is `wSigBytes` (built with the
all-zero 32-byte MAC key and the identity keys of all-2 and all-3 bytes). -/
def wSigMsg : SignalMessage :=
  { message_version := .version3, sender_ratchet_key := ⟨List.replicate 32 1⟩,
    counter := 42, previous_counter := 41, ciphertext := [1, 2, 3],
    serialized := wSigBytes }

/-- Serialized bytes of a concrete sender-key message: version byte `0x33`,
protobuf body, 64-byte signature. -/
def wSkmBytes : List Nat :=
  [51, 10, 16] ++ List.replicate 16 9 ++ [16, 42, 24, 7, 34, 3, 1, 2, 3] ++
    [49, 34, 19, 243, 228, 213, 181, 166, 151, 119, 104, 89, 57, 42, 10, 251,
     236, 204, 189, 174, 142, 127, 112, 80, 65, 50, 18, 3, 227, 212, 197, 165,
     150, 135, 103, 88, 73, 41, 26, 11, 235, 220, 188, 173, 158, 126, 111, 96,
     64, 49, 34, 2, 243, 228, 196, 181, 149, 134, 119, 87, 72, 57, 25, 10]

/-- The sender-key message whose serialized form is `wSkmBytes`. -/
def wSkmMsg : SenderKeyMessage :=
  { message_version := .version3, distribution_id := ⟨List.replicate 16 9⟩,
    chain_id := 42, iteration := 7, ciphertext := [1, 2, 3],
    serialized := wSkmBytes }

/-- A concrete pre-key message protobuf body that *lacks* the
`registration_id` field but carries every mandatory field (signed pre-key
id 97, a base key, an identity key, and `wSigBytes` as the inner message). -/
def wPkmProto : ProtoPreKeySignalMessage :=
  { registration_id := none, pre_key_id := none, signed_pre_key_id := some 97,
    base_key := some (5 :: List.replicate 32 4),
    identity_key := some (5 :: List.replicate 32 5),
    message := some wSigBytes }

/-- The encoded body of `wPkmProto`. -/
def wPkmBody : List Nat :=
  [48, 97, 18, 33] ++ (5 :: List.replicate 32 4) ++ [26, 33] ++
    (5 :: List.replicate 32 5) ++ [34, 53] ++ wSigBytes

theorem encVarintAux_fuel_irrel (n : Nat) :
    ∀ fuel fuel', n ≤ fuel → n ≤ fuel' →
      encVarintAux fuel n = encVarintAux fuel' n := by
  induction n using Nat.strong_induction_on with
  | _ n ih =>
    intro fuel fuel' hf hf'
    match fuel, fuel' with
    | 0, 0 => rfl
    | 0, f' + 1 =>
      have : n = 0 := by omega
      subst this
      simp [encVarintAux]
    | f + 1, 0 =>
      have : n = 0 := by omega
      subst this
      simp [encVarintAux]
    | f + 1, f' + 1 =>
      by_cases h : n < 128
      · simp [encVarintAux, h]
      · simp only [encVarintAux, h, if_false]
        have hlt : n / 128 < n := Nat.div_lt_self (by omega) (by omega)
        rw [ih (n / 128) hlt f f' (by omega) (by omega)]

theorem encVarint_eq (n : Nat) :
    encVarint n = if n < 128 then [n] else (n % 128 + 128) :: encVarint (n / 128) := by
  by_cases h : n < 128
  · rw [if_pos h]
    cases hn : n with
    | zero => simp [encVarint, encVarintAux]
    | succ k =>
      simp only [encVarint, encVarintAux]
      rw [if_pos (by omega)]
  · rw [if_neg h]
    obtain ⟨k, rfl⟩ : ∃ k, n = k + 1 := ⟨n - 1, by omega⟩
    simp only [encVarint, encVarintAux, h, if_false]
    have hlt : (k + 1) / 128 < k + 1 := Nat.div_lt_self (by omega) (by omega)
    rw [encVarintAux_fuel_irrel ((k + 1) / 128) k ((k + 1) / 128) (by omega) (by omega)]

theorem readVarint_encVarint (n : Nat) (rest : List Nat) :
    readVarint (encVarint n ++ rest) = some (n, rest) := by
  induction n using Nat.strong_induction_on with
  | _ n ih =>
    by_cases h : n < 128
    · rw [encVarint_eq]
      simp [h, readVarint]
    · rw [encVarint_eq]
      simp only [h, if_false, List.cons_append, readVarint]
      have h1 : ¬ (n % 128 + 128 < 128) := by omega
      rw [if_neg h1, ih (n / 128) (Nat.div_lt_self (by omega) (by omega))]
      show some (n / 128 * 128 + (n % 128 + 128 - 128), rest) = some (n, rest)
      have h2 : n / 128 * 128 + (n % 128 + 128 - 128) = n := by omega
      rw [h2]

theorem encVarint_ne_nil (n : Nat) : encVarint n ≠ [] := by
  rw [encVarint_eq]
  split <;> simp

theorem encVarint_length_pos (n : Nat) : 1 ≤ (encVarint n).length := by
  cases h : encVarint n with
  | nil => exact absurd h (encVarint_ne_nil n)
  | cons a l => simp

theorem runDecode_vint_step {S : Type} (apply : S → Nat → FieldVal → Option S)
    (fuel : Nat) (s : S) (num v : Nat) (rest : List Nat) :
    runDecode apply (fuel + 1) s (encVintField num v ++ rest) =
      match apply s num (.vint v) with
      | none => none
      | some s' => runDecode apply fuel s' rest := by
  have hne : encVintField num v ++ rest ≠ [] := by
    cases h : encVarint (8 * num) with
    | nil => exact absurd h (encVarint_ne_nil _)
    | cons a l => simp [encVintField, h]
  rw [runDecode, if_neg hne]
  rw [show encVintField num v ++ rest = encVarint (8 * num) ++ (encVarint v ++ rest) by
    simp [encVintField]]
  rw [readVarint_encVarint]
  have hmod : 8 * num % 8 = 0 := Nat.mul_mod_right 8 num
  have hdiv : 8 * num / 8 = num := Nat.mul_div_cancel_left num (by norm_num)
  simp only [hmod, hdiv, readVarint_encVarint]

theorem runDecode_bytes_step {S : Type} (apply : S → Nat → FieldVal → Option S)
    (fuel : Nat) (s : S) (num : Nat) (payload rest : List Nat) :
    runDecode apply (fuel + 1) s (encBytesField num payload ++ rest) =
      match apply s num (.bytes payload) with
      | none => none
      | some s' => runDecode apply fuel s' rest := by
  have hne : encBytesField num payload ++ rest ≠ [] := by
    cases h : encVarint (8 * num + 2) with
    | nil => exact absurd h (encVarint_ne_nil _)
    | cons a l => simp [encBytesField, h]
  rw [runDecode, if_neg hne]
  rw [show encBytesField num payload ++ rest =
      encVarint (8 * num + 2) ++ (encVarint payload.length ++ (payload ++ rest)) by
    simp [encBytesField]]
  rw [readVarint_encVarint]
  have hmod : (8 * num + 2) % 8 = 2 := by omega
  have hdiv : (8 * num + 2) / 8 = num := by omega
  simp only [hmod, hdiv, readVarint_encVarint]
  have hle : payload.length ≤ (payload ++ rest).length := by simp
  rw [if_pos hle, List.take_left, List.drop_left]

theorem runDecode_encodeFields {S : Type} (apply : S → Nat → FieldVal → Option S)
    (fs : List (Nat × FieldVal)) :
    ∀ fuel s, fs.length ≤ fuel →
      runDecode apply (fuel + 1) s (encodeFields fs) =
        fs.foldlM (fun s f => apply s f.1 f.2) s := by
  induction fs with
  | nil =>
    intro fuel s _
    rw [runDecode]
    simp [encodeFields]
  | cons f t ih =>
    intro fuel s hfuel
    obtain ⟨fuel', rfl⟩ : ∃ k, fuel = k + 1 := by
      cases fuel with
      | zero => simp at hfuel
      | succ k => exact ⟨k, rfl⟩
    have ht : t.length ≤ fuel' := by
      simp at hfuel
      omega
    obtain ⟨num, v⟩ := f
    cases v with
    | vint n =>
      have : encodeFields ((num, FieldVal.vint n) :: t) =
          encVintField num n ++ encodeFields t := by
        simp [encodeFields, encodeField]
      rw [this, runDecode_vint_step]
      cases happly : apply s num (.vint n) with
      | none => simp [List.foldlM, happly]
      | some s' =>
        show runDecode apply (fuel' + 1) s' (encodeFields t) = _
        rw [ih fuel' s' ht]
        simp [List.foldlM, happly]
    | bytes l =>
      have : encodeFields ((num, FieldVal.bytes l) :: t) =
          encBytesField num l ++ encodeFields t := by
        simp [encodeFields, encodeField]
      rw [this, runDecode_bytes_step]
      cases happly : apply s num (.bytes l) with
      | none => simp [List.foldlM, happly]
      | some s' =>
        show runDecode apply (fuel' + 1) s' (encodeFields t) = _
        rw [ih fuel' s' ht]
        simp [List.foldlM, happly]

theorem encodeFields_length_ge (fs : List (Nat × FieldVal)) :
    fs.length ≤ (encodeFields fs).length := by
  induction fs with
  | nil => simp [encodeFields]
  | cons f t ih =>
    have hstep : 1 ≤ (encodeField f).length := by
      obtain ⟨num, v⟩ := f
      cases v with
      | vint n =>
        simp [encodeField, encVintField]
        have := encVarint_length_pos (8 * num)
        omega
      | bytes l =>
        simp [encodeField, encBytesField]
        have := encVarint_length_pos (8 * num + 2)
        omega
    have : encodeFields (f :: t) = encodeField f ++ encodeFields t := by
      simp [encodeFields]
    rw [this]
    simp only [List.length_append, List.length_cons]
    omega

theorem protoSignalMessage_decode_encode (m : ProtoSignalMessage)
    (hc : m.counter.getD 0 < 2 ^ 32)
    (hp : m.previous_counter.getD 0 < 2 ^ 32) :
    ProtoSignalMessage.decode m.encode = .ok m := by
  have h := runDecode_encodeFields ProtoSignalMessage.applyField m.fields
      (encodeFields m.fields).length {} (encodeFields_length_ge _)
  simp only [ProtoSignalMessage.decode, ProtoSignalMessage.encode]
  rw [h]
  obtain ⟨rk, c, pc, ct⟩ := m
  simp only [Option.getD] at hc hp
  rcases rk with _ | rk <;> rcases c with _ | c <;>
    rcases pc with _ | pc <;> rcases ct with _ | ct <;>
    simp_all [ProtoSignalMessage.fields, optVint, optBytes, List.foldlM,
      ProtoSignalMessage.applyField, Nat.mod_eq_of_lt]

theorem protoPreKeySignalMessage_decode_encode (m : ProtoPreKeySignalMessage)
    (hr : m.registration_id.getD 0 < 2 ^ 32)
    (hpk : m.pre_key_id.getD 0 < 2 ^ 32)
    (hsp : m.signed_pre_key_id.getD 0 < 2 ^ 32) :
    ProtoPreKeySignalMessage.decode m.encode = .ok m := by
  have h := runDecode_encodeFields ProtoPreKeySignalMessage.applyField m.fields
      (encodeFields m.fields).length {} (encodeFields_length_ge _)
  simp only [ProtoPreKeySignalMessage.decode, ProtoPreKeySignalMessage.encode]
  rw [h]
  obtain ⟨rg, pk, sp, bk, ik, ms⟩ := m
  simp only [Option.getD] at hr hpk hsp
  rcases rg with _ | rg <;> rcases pk with _ | pk <;> rcases sp with _ | sp <;>
    rcases bk with _ | bk <;> rcases ik with _ | ik <;> rcases ms with _ | ms <;>
    simp_all [ProtoPreKeySignalMessage.fields, optVint, optBytes, List.foldlM,
      ProtoPreKeySignalMessage.applyField, Nat.mod_eq_of_lt]

theorem protoSenderKeyMessage_decode_encode (m : ProtoSenderKeyMessage)
    (hc : m.chain_id.getD 0 < 2 ^ 32)
    (hi : m.iteration.getD 0 < 2 ^ 32) :
    ProtoSenderKeyMessage.decode m.encode = .ok m := by
  have h := runDecode_encodeFields ProtoSenderKeyMessage.applyField m.fields
      (encodeFields m.fields).length {} (encodeFields_length_ge _)
  simp only [ProtoSenderKeyMessage.decode, ProtoSenderKeyMessage.encode]
  rw [h]
  obtain ⟨du, c, it, ct⟩ := m
  simp only [Option.getD] at hc hi
  rcases du with _ | du <;> rcases c with _ | c <;>
    rcases it with _ | it <;> rcases ct with _ | ct <;>
    simp_all [ProtoSenderKeyMessage.fields, optVint, optBytes, List.foldlM,
      ProtoSenderKeyMessage.applyField, Nat.mod_eq_of_lt]

theorem protoSenderKeyDistributionMessage_decode_encode
    (m : ProtoSenderKeyDistributionMessage)
    (hc : m.chain_id.getD 0 < 2 ^ 32)
    (hi : m.iteration.getD 0 < 2 ^ 32) :
    ProtoSenderKeyDistributionMessage.decode m.encode = .ok m := by
  have h := runDecode_encodeFields ProtoSenderKeyDistributionMessage.applyField
      m.fields (encodeFields m.fields).length {} (encodeFields_length_ge _)
  simp only [ProtoSenderKeyDistributionMessage.decode,
    ProtoSenderKeyDistributionMessage.encode]
  rw [h]
  obtain ⟨du, c, it, ck, sk⟩ := m
  simp only [Option.getD] at hc hi
  rcases du with _ | du <;> rcases c with _ | c <;> rcases it with _ | it <;>
    rcases ck with _ | ck <;> rcases sk with _ | sk <;>
    simp_all [ProtoSenderKeyDistributionMessage.fields, optVint, optBytes,
      List.foldlM, ProtoSenderKeyDistributionMessage.applyField, Nat.mod_eq_of_lt]

theorem hmacSha256_length (key message : List Nat) :
    (hmacSha256 key message).length = 32 := by
  simp [hmacSha256]

theorem calculateSignature_length (k : PrivateKey) (message : List Nat) :
    (calculateSignature k message).length = SIGNATURE_LENGTH := by
  simp [calculateSignature]

@[simp] theorem RResult.bind_ok {α β : Type} (a : α) (f : α → RResult β) :
    (RResult.ok a >>= f) = f a := rfl

@[simp] theorem RResult.bind_err {α β : Type} (e : SignalProtocolError)
    (f : α → RResult β) : (RResult.err e >>= f) = RResult.err e := rfl

@[simp] theorem RResult.bind_panicked {α β : Type} (f : α → RResult β) :
    (RResult.panicked >>= f) = RResult.panicked := rfl

/-! ## Round-trip helper lemmas -/

theorem computeMac_ok (sik rik : IdentityKey) (mac_key message : List Nat)
    (hk : mac_key.length = 32) :
    computeMac sik rik mac_key message =
      .ok ((hmacSha256 mac_key
        (sik.serialize ++ rik.serialize ++ message)).take
          SignalMessage.MAC_LENGTH) := by
  simp [computeMac, hk]

theorem computeMac_ok_length (sik rik : IdentityKey)
    (mac_key message tag : List Nat)
    (h : computeMac sik rik mac_key message = .ok tag) : tag.length = 8 := by
  by_cases hk : mac_key.length = 32
  · rw [computeMac_ok sik rik mac_key message hk] at h
    cases h
    simp [hmacSha256_length, SignalMessage.MAC_LENGTH]
  · simp [computeMac, hk] at h

theorem publicKey_decode_serialize (k : PublicKey)
    (h : k.keyData.length = 32) :
    PublicKey.decode k.serialize = .ok k := by
  simp [PublicKey.decode, PublicKey.serialize, DJB_TYPE, h]

theorem identityKey_decode_serialize (k : IdentityKey)
    (h : k.public_key.keyData.length = 32) :
    IdentityKey.decode k.serialize = .ok k := by
  rw [IdentityKey.decode, IdentityKey.serialize,
    publicKey_decode_serialize _ h]
  rfl

theorem version3_byte :
    ((MessageVersion.toU8 .version3 &&& 15) <<< 4) |||
      CIPHERTEXT_MESSAGE_CURRENT_VERSION = 51 := by decide

theorem signalMessage_new_eq (mac_key : List Nat) (rk : PublicKey)
    (c pc : Nat) (ct : List Nat) (sik rik : IdentityKey)
    (hk : mac_key.length = 32) :
    SignalMessage.new .version3 mac_key rk c pc ct sik rik =
      .ok { message_version := .version3, sender_ratchet_key := rk,
            counter := c, previous_counter := pc, ciphertext := ct,
            serialized :=
              51 :: ProtoSignalMessage.encode
                  { ratchet_key := some rk.serialize, counter := some c,
                    previous_counter := some pc, ciphertext := some ct } ++
                (hmacSha256 mac_key (sik.serialize ++ rik.serialize ++
                  (51 :: ProtoSignalMessage.encode
                    { ratchet_key := some rk.serialize, counter := some c,
                      previous_counter := some pc,
                      ciphertext := some ct }))).take
                  SignalMessage.MAC_LENGTH } := by
  simp only [SignalMessage.new, version3_byte, computeMac_ok _ _ _ _ hk]

theorem signalMessage_parse_serialized (mac_key : List Nat) (rk : PublicKey)
    (c pc : Nat) (ct : List Nat) (sik rik : IdentityKey) (m : SignalMessage)
    (hk : mac_key.length = 32) (hrk : rk.keyData.length = 32)
    (hc : c < 2 ^ 32) (hpc : pc < 2 ^ 32)
    (hm : SignalMessage.new .version3 mac_key rk c pc ct sik rik = .ok m) :
    SignalMessage.tryFrom m.serialized = .ok m := by
  rw [signalMessage_new_eq mac_key rk c pc ct sik rik hk] at hm
  cases hm
  set body : List Nat := ProtoSignalMessage.encode
      { ratchet_key := some rk.serialize, counter := some c,
        previous_counter := some pc, ciphertext := some ct } with hbody
  set mac : List Nat := (hmacSha256 mac_key (sik.serialize ++ rik.serialize ++
      (51 :: body))).take SignalMessage.MAC_LENGTH with hmac
  have hmaclen : mac.length = 8 := by
    simp [hmac, hmacSha256_length, SignalMessage.MAC_LENGTH]
  clear_value body mac
  have hlen : (51 :: body ++ mac).length = body.length + 9 := by
    simp only [List.length_cons, List.length_append, hmaclen]
  rw [SignalMessage.tryFrom]
  rw [if_neg (by simp only [hlen, SignalMessage.MAC_LENGTH]; omega)]
  have hidx : listIndex (51 :: body ++ mac) 0 = .ok 51 := by
    simp [listIndex]
  rw [hidx, RResult.bind_ok]
  have h51 : (51 : Nat) >>> 4 = 3 := by decide
  rw [h51]
  rw [if_neg (by simp [CIPHERTEXT_MESSAGE_CURRENT_VERSION])]
  rw [if_neg (by simp [CIPHERTEXT_MESSAGE_CURRENT_VERSION])]
  rw [SignalMessage.decodeBody]
  have hsub : subUsize (51 :: body ++ mac).length SignalMessage.MAC_LENGTH =
      .ok (body.length + 1) := by
    simp only [hlen, SignalMessage.MAC_LENGTH, subUsize]
    rw [if_pos (by omega)]
    have h9 : body.length + 9 - 8 = body.length + 1 := by omega
    rw [h9]
  rw [hsub, RResult.bind_ok]
  have hslice : sliceRange (51 :: body ++ mac) 1 (body.length + 1) =
      .ok body := by
    simp only [sliceRange]
    rw [if_pos (by refine ⟨by omega, ?_⟩
                   rw [hlen]
                   omega)]
    congr 1
    have h1 : body.length + 1 = (51 :: body).length := by simp
    rw [h1, List.take_left]
    simp
  rw [hslice, RResult.bind_ok]
  have hdec : ProtoSignalMessage.decode body =
      .ok { ratchet_key := some rk.serialize, counter := some c,
            previous_counter := some pc, ciphertext := some ct } := by
    rw [hbody]
    exact protoSignalMessage_decode_encode _ (by simpa using hc)
      (by simpa using hpc)
  rw [hdec]
  simp only [RResult.ofExcept, RResult.bind_ok]
  have hpk : PublicKey.decode rk.serialize = .ok rk := by
    simp [PublicKey.decode, PublicKey.serialize, DJB_TYPE, hrk]
  simp only [mandatory, RResult.bind_ok, hpk, RResult.ofExcept,
    MessageVersion.fromU8, CIPHERTEXT_MESSAGE_CURRENT_VERSION, Option.getD]
  norm_num

theorem signalMessage_roundtrip (mac_key : List Nat) (rk : PublicKey)
    (c pc : Nat) (ct : List Nat) (sik rik : IdentityKey)
    (hk : mac_key.length = 32) (hrk : rk.keyData.length = 32)
    (hc : c < 2 ^ 32) (hpc : pc < 2 ^ 32) :
    ∃ m, SignalMessage.new .version3 mac_key rk c pc ct sik rik = .ok m ∧
      SignalMessage.tryFrom m.serialized = .ok m := by
  refine ⟨_, signalMessage_new_eq mac_key rk c pc ct sik rik hk, ?_⟩
  exact signalMessage_parse_serialized mac_key rk c pc ct sik rik _ hk hrk hc
    hpc (signalMessage_new_eq mac_key rk c pc ct sik rik hk)

theorem encVarint_small (n : Nat) (h : n < 128) : encVarint n = [n] := by
  rw [encVarint_eq, if_pos h]

theorem current_version_byte :
    ((CIPHERTEXT_MESSAGE_CURRENT_VERSION &&& 15) <<< 4) |||
      CIPHERTEXT_MESSAGE_CURRENT_VERSION = 51 := by decide

theorem preKeySignalMessage_new_eq (reg : Nat) (pkid : Option Nat)
    (spkid : Nat) (bk : PublicKey) (ik : IdentityKey) (inner : SignalMessage) :
    PreKeySignalMessage.new .version3 reg pkid spkid bk ik inner =
      .ok { message_version := .version3, registration_id := reg,
            pre_key_id := pkid, signed_pre_key_id := spkid, base_key := bk,
            identity_key := ik, message := inner,
            serialized := 51 :: ProtoPreKeySignalMessage.encode
              { registration_id := some reg, pre_key_id := pkid,
                signed_pre_key_id := some spkid,
                base_key := some bk.serialize,
                identity_key := some ik.serialize,
                message := some inner.serialized } } := by
  simp only [PreKeySignalMessage.new, version3_byte]

theorem preKeySignalMessage_parse_serialized (reg : Nat) (pkid : Option Nat)
    (spkid : Nat) (bk : PublicKey) (ik : IdentityKey) (inner : SignalMessage)
    (m : PreKeySignalMessage)
    (hreg : reg < 2 ^ 32) (hpkid : pkid.getD 0 < 2 ^ 32)
    (hspkid : spkid < 2 ^ 32) (hbk : bk.keyData.length = 32)
    (hik : ik.public_key.keyData.length = 32)
    (hinner : SignalMessage.tryFrom inner.serialized = .ok inner)
    (hm : PreKeySignalMessage.new .version3 reg pkid spkid bk ik inner =
      .ok m) :
    PreKeySignalMessage.tryFrom m.serialized = .ok m := by
  rw [preKeySignalMessage_new_eq] at hm
  cases hm
  set body : List Nat := ProtoPreKeySignalMessage.encode
      { registration_id := some reg, pre_key_id := pkid,
        signed_pre_key_id := some spkid, base_key := some bk.serialize,
        identity_key := some ik.serialize,
        message := some inner.serialized } with hbody
  rw [PreKeySignalMessage.tryFrom]
  rw [if_neg (by simp)]
  have hidx : listIndex (51 :: body) 0 = .ok 51 := by
    simp [listIndex]
  rw [hidx, RResult.bind_ok]
  have h51 : (51 : Nat) >>> 4 = 3 := by decide
  rw [h51]
  rw [if_neg (by simp [CIPHERTEXT_MESSAGE_CURRENT_VERSION])]
  rw [if_neg (by simp [CIPHERTEXT_MESSAGE_CURRENT_VERSION])]
  rw [PreKeySignalMessage.decodeBody]
  have hslice : sliceFrom (51 :: body) 1 = .ok body := by
    simp [sliceFrom]
  rw [hslice, RResult.bind_ok]
  have hdec : ProtoPreKeySignalMessage.decode body =
      .ok { registration_id := some reg, pre_key_id := pkid,
            signed_pre_key_id := some spkid, base_key := some bk.serialize,
            identity_key := some ik.serialize,
            message := some inner.serialized } := by
    rw [hbody]
    exact protoPreKeySignalMessage_decode_encode _ (by simpa using hreg)
      (by simpa using hpkid) (by simpa using hspkid)
  rw [hdec]
  simp only [RResult.ofExcept, RResult.bind_ok, mandatory]
  have hpk : PublicKey.decode bk.serialize = .ok bk := by
    simp [PublicKey.decode, PublicKey.serialize, DJB_TYPE, hbk]
  have hikdec : IdentityKey.decode ik.serialize = .ok ik :=
    identityKey_decode_serialize ik hik
  simp only [hpk, hikdec, RResult.ofExcept, RResult.bind_ok,
    MessageVersion.fromU8, CIPHERTEXT_MESSAGE_CURRENT_VERSION, hinner,
    Option.getD]
  norm_num

theorem preKeySignalMessage_roundtrip (reg : Nat) (pkid : Option Nat)
    (spkid : Nat) (bk : PublicKey) (ik : IdentityKey) (inner : SignalMessage)
    (hreg : reg < 2 ^ 32) (hpkid : pkid.getD 0 < 2 ^ 32)
    (hspkid : spkid < 2 ^ 32) (hbk : bk.keyData.length = 32)
    (hik : ik.public_key.keyData.length = 32)
    (hinner : SignalMessage.tryFrom inner.serialized = .ok inner) :
    ∃ m, PreKeySignalMessage.new .version3 reg pkid spkid bk ik inner =
        .ok m ∧
      PreKeySignalMessage.tryFrom m.serialized = .ok m := by
  exact ⟨_, preKeySignalMessage_new_eq reg pkid spkid bk ik inner,
    preKeySignalMessage_parse_serialized reg pkid spkid bk ik inner _ hreg
      hpkid hspkid hbk hik hinner (preKeySignalMessage_new_eq _ _ _ _ _ _)⟩

theorem senderKeyMessage_new_eq (did : Uuid) (cid iter : Nat) (ct : List Nat)
    (sk : PrivateKey) :
    SenderKeyMessage.new did cid iter ct sk =
      .ok { message_version := .version3, distribution_id := did,
            chain_id := cid, iteration := iter, ciphertext := ct,
            serialized :=
              (51 :: ProtoSenderKeyMessage.encode
                { distribution_uuid := some did.uuidBytes,
                  chain_id := some cid, iteration := some iter,
                  ciphertext := some ct }) ++
              calculateSignature sk (51 :: ProtoSenderKeyMessage.encode
                { distribution_uuid := some did.uuidBytes,
                  chain_id := some cid, iteration := some iter,
                  ciphertext := some ct }) } := by
  simp only [SenderKeyMessage.new, current_version_byte, MessageVersion.default]

theorem senderKeyMessage_parse_serialized (did : Uuid) (cid iter : Nat)
    (ct : List Nat) (sk : PrivateKey) (m : SenderKeyMessage)
    (hdid : did.uuidBytes.length = 16) (hcid : cid < 2 ^ 32)
    (hiter : iter < 2 ^ 32)
    (hm : SenderKeyMessage.new did cid iter ct sk = .ok m) :
    SenderKeyMessage.tryFrom m.serialized = .ok m := by
  rw [senderKeyMessage_new_eq] at hm
  cases hm
  set body : List Nat := ProtoSenderKeyMessage.encode
      { distribution_uuid := some did.uuidBytes, chain_id := some cid,
        iteration := some iter, ciphertext := some ct } with hbody
  set sg : List Nat := calculateSignature sk (51 :: body) with hsg
  have hsglen : sg.length = 64 := by
    simp [hsg, calculateSignature_length, SIGNATURE_LENGTH]
  clear_value body sg
  have hlen : ((51 :: body) ++ sg).length = body.length + 65 := by
    simp only [List.length_append, List.length_cons, hsglen]
  rw [SenderKeyMessage.tryFrom]
  rw [if_neg (by simp only [hlen, SIGNATURE_LENGTH]; omega)]
  have hidx : listIndex ((51 :: body) ++ sg) 0 = .ok 51 := by
    simp [listIndex]
  rw [hidx, RResult.bind_ok]
  have h51 : (51 : Nat) >>> 4 = 3 := by decide
  rw [h51]
  rw [if_neg (by simp [CIPHERTEXT_MESSAGE_CURRENT_VERSION])]
  rw [if_neg (by simp [CIPHERTEXT_MESSAGE_CURRENT_VERSION])]
  rw [SenderKeyMessage.decodeBody]
  have hsub : subUsize ((51 :: body) ++ sg).length SIGNATURE_LENGTH =
      .ok (body.length + 1) := by
    simp only [hlen, SIGNATURE_LENGTH, subUsize]
    rw [if_pos (by omega)]
    have h9 : body.length + 65 - 64 = body.length + 1 := by omega
    rw [h9]
  rw [hsub, RResult.bind_ok]
  have hslice : sliceRange ((51 :: body) ++ sg) 1 (body.length + 1) =
      .ok body := by
    simp only [sliceRange]
    rw [if_pos (by refine ⟨by omega, ?_⟩
                   rw [hlen]
                   omega)]
    congr 1
    have h1 : body.length + 1 = (51 :: body).length := by simp
    rw [h1, List.take_left]
    simp
  rw [hslice, RResult.bind_ok]
  have hdec : ProtoSenderKeyMessage.decode body =
      .ok { distribution_uuid := some did.uuidBytes, chain_id := some cid,
            iteration := some iter, ciphertext := some ct } := by
    rw [hbody]
    exact protoSenderKeyMessage_decode_encode _ (by simpa using hcid)
      (by simpa using hiter)
  rw [hdec]
  simp only [RResult.ofExcept, RResult.bind_ok]
  have huuid : Uuid.fromSlice did.uuidBytes = some did := by
    simp [Uuid.fromSlice, hdid]
  simp only [Option.bind, mandatory, huuid, RResult.bind_ok,
    RResult.ofExcept, MessageVersion.fromU8, CIPHERTEXT_MESSAGE_CURRENT_VERSION]
  norm_num

theorem senderKeyMessage_roundtrip (did : Uuid) (cid iter : Nat)
    (ct : List Nat) (sk : PrivateKey)
    (hdid : did.uuidBytes.length = 16) (hcid : cid < 2 ^ 32)
    (hiter : iter < 2 ^ 32) :
    ∃ m, SenderKeyMessage.new did cid iter ct sk = .ok m ∧
      SenderKeyMessage.tryFrom m.serialized = .ok m :=
  ⟨_, senderKeyMessage_new_eq did cid iter ct sk,
    senderKeyMessage_parse_serialized did cid iter ct sk _ hdid hcid hiter
      (senderKeyMessage_new_eq did cid iter ct sk)⟩

theorem senderKeyDistributionMessage_new_eq (did : Uuid) (cid iter : Nat)
    (ck : List Nat) (sk : PublicKey) :
    SenderKeyDistributionMessage.new did cid iter ck sk =
      .ok { message_version := .version3, distribution_id := did,
            chain_id := cid, iteration := iter, chain_key := ck,
            signing_key := sk,
            serialized := 51 :: ProtoSenderKeyDistributionMessage.encode
              { distribution_uuid := some did.uuidBytes,
                chain_id := some cid, iteration := some iter,
                chain_key := some ck,
                signing_key := some sk.serialize } } := by
  simp only [SenderKeyDistributionMessage.new, current_version_byte,
    MessageVersion.fromU8, CIPHERTEXT_MESSAGE_CURRENT_VERSION]
  norm_num
  decide

theorem skdm_body_length_ge (u : List Nat) (cid iter : Nat)
    (ck sks : List Nat) (hu : u.length = 16) (hck : ck.length = 32)
    (hsks : sks.length = 33) :
    64 ≤ (ProtoSenderKeyDistributionMessage.encode
      { distribution_uuid := some u, chain_id := some cid,
        iteration := some iter, chain_key := some ck,
        signing_key := some sks }).length := by
  have h1 := encVarint_length_pos cid
  have h2 := encVarint_length_pos iter
  simp [ProtoSenderKeyDistributionMessage.encode,
    ProtoSenderKeyDistributionMessage.fields, optVint, optBytes, encodeFields,
    encodeField, encBytesField, encVintField, hu, hck, hsks, encVarint_small]
  omega

theorem senderKeyDistributionMessage_parse_serialized (did : Uuid)
    (cid iter : Nat) (ck : List Nat) (sk : PublicKey)
    (m : SenderKeyDistributionMessage)
    (hdid : did.uuidBytes.length = 16) (hcid : cid < 2 ^ 32)
    (hiter : iter < 2 ^ 32) (hck : ck.length = 32)
    (hsk : sk.keyData.length = 32)
    (hm : SenderKeyDistributionMessage.new did cid iter ck sk = .ok m) :
    SenderKeyDistributionMessage.tryFrom m.serialized = .ok m := by
  rw [senderKeyDistributionMessage_new_eq] at hm
  cases hm
  have hsklen : sk.serialize.length = 33 := by
    simp [PublicKey.serialize]
    omega
  have hbodylen := skdm_body_length_ge did.uuidBytes cid iter ck sk.serialize
    hdid hck hsklen
  set body : List Nat := ProtoSenderKeyDistributionMessage.encode
      { distribution_uuid := some did.uuidBytes, chain_id := some cid,
        iteration := some iter, chain_key := some ck,
        signing_key := some sk.serialize } with hbody
  clear_value body
  rw [SenderKeyDistributionMessage.tryFrom]
  rw [if_neg (by simp only [List.length_cons]; omega)]
  have hidx : listIndex (51 :: body) 0 = .ok 51 := by
    simp [listIndex]
  rw [hidx, RResult.bind_ok]
  have h51 : (51 : Nat) >>> 4 = 3 := by decide
  rw [h51]
  rw [if_neg (by simp [CIPHERTEXT_MESSAGE_CURRENT_VERSION])]
  rw [if_neg (by simp [CIPHERTEXT_MESSAGE_CURRENT_VERSION])]
  rw [SenderKeyDistributionMessage.decodeBody]
  have hslice : sliceFrom (51 :: body) 1 = .ok body := by
    simp [sliceFrom]
  rw [hslice, RResult.bind_ok]
  have hdec : ProtoSenderKeyDistributionMessage.decode body =
      .ok { distribution_uuid := some did.uuidBytes, chain_id := some cid,
            iteration := some iter, chain_key := some ck,
            signing_key := some sk.serialize } := by
    rw [hbody]
    exact protoSenderKeyDistributionMessage_decode_encode _
      (by simpa using hcid) (by simpa using hiter)
  rw [hdec]
  simp only [RResult.ofExcept, RResult.bind_ok]
  have huuid : Uuid.fromSlice did.uuidBytes = some did := by
    simp [Uuid.fromSlice, hdid]
  simp only [Option.bind, mandatory, huuid, RResult.bind_ok]
  rw [if_neg (by simp [hck, hsklen])]
  simp only [publicKey_decode_serialize sk hsk, RResult.ofExcept,
    RResult.bind_ok, MessageVersion.fromU8,
    CIPHERTEXT_MESSAGE_CURRENT_VERSION]
  norm_num

theorem senderKeyDistributionMessage_roundtrip (did : Uuid) (cid iter : Nat)
    (ck : List Nat) (sk : PublicKey)
    (hdid : did.uuidBytes.length = 16) (hcid : cid < 2 ^ 32)
    (hiter : iter < 2 ^ 32) (hck : ck.length = 32)
    (hsk : sk.keyData.length = 32) :
    ∃ m, SenderKeyDistributionMessage.new did cid iter ck sk = .ok m ∧
      SenderKeyDistributionMessage.tryFrom m.serialized = .ok m :=
  ⟨_, senderKeyDistributionMessage_new_eq did cid iter ck sk,
    senderKeyDistributionMessage_parse_serialized did cid iter ck sk _ hdid
      hcid hiter hck hsk (senderKeyDistributionMessage_new_eq did cid iter ck sk)⟩

/-! ## Inversion helpers -/

theorem RResult.bind_eq_ok {α β : Type} {x : RResult α} {f : α → RResult β}
    {b : β} (h : (x >>= f) = .ok b) : ∃ a, x = .ok a ∧ f a = .ok b := by
  cases x with
  | ok a => exact ⟨a, rfl, h⟩
  | err e => simp at h
  | panicked => simp at h

theorem RResult.if_eq_ok {α : Type} {c : Prop} [Decidable c]
    {x y : RResult α} {b : α}
    (h : (if c then x else y) = .ok b) :
    (c ∧ x = .ok b) ∨ (¬ c ∧ y = .ok b) := by
  by_cases hc : c
  · rw [if_pos hc] at h
    exact .inl ⟨hc, h⟩
  · rw [if_neg hc] at h
    exact .inr ⟨hc, h⟩

theorem signalMessage_decodeBody_serialized (mv : Nat) (v : List Nat)
    (m : SignalMessage) (h : SignalMessage.decodeBody mv v = .ok m) :
    m.serialized = v := by
  rw [SignalMessage.decodeBody] at h
  obtain ⟨a1, h1, h⟩ := RResult.bind_eq_ok h
  obtain ⟨a2, h2, h⟩ := RResult.bind_eq_ok h
  obtain ⟨a3, h3, h⟩ := RResult.bind_eq_ok h
  obtain ⟨a4, h4, h⟩ := RResult.bind_eq_ok h
  obtain ⟨a5, h5, h⟩ := RResult.bind_eq_ok h
  obtain ⟨a6, h6, h⟩ := RResult.bind_eq_ok h
  obtain ⟨a7, h7, h⟩ := RResult.bind_eq_ok h
  obtain ⟨a8, h8, h⟩ := RResult.bind_eq_ok h
  cases h
  rfl

theorem signalMessage_tryFrom_serialized (v : List Nat) (m : SignalMessage)
    (h : SignalMessage.tryFrom v = .ok m) : m.serialized = v := by
  rw [SignalMessage.tryFrom] at h
  rcases RResult.if_eq_ok h with ⟨_, h'⟩ | ⟨_, h⟩
  · simp at h'
  · obtain ⟨b0, hb0, h⟩ := RResult.bind_eq_ok h
    rcases RResult.if_eq_ok h with ⟨_, h'⟩ | ⟨_, h⟩
    · simp at h'
    · rcases RResult.if_eq_ok h with ⟨_, h'⟩ | ⟨_, h⟩
      · simp at h'
      · exact signalMessage_decodeBody_serialized _ _ _ h

theorem preKeySignalMessage_decodeBody_serialized (mv : Nat) (v : List Nat)
    (m : PreKeySignalMessage)
    (h : PreKeySignalMessage.decodeBody mv v = .ok m) : m.serialized = v := by
  rw [PreKeySignalMessage.decodeBody] at h
  obtain ⟨a1, h1, h⟩ := RResult.bind_eq_ok h
  obtain ⟨a2, h2, h⟩ := RResult.bind_eq_ok h
  obtain ⟨a3, h3, h⟩ := RResult.bind_eq_ok h
  obtain ⟨a4, h4, h⟩ := RResult.bind_eq_ok h
  obtain ⟨a5, h5, h⟩ := RResult.bind_eq_ok h
  obtain ⟨a6, h6, h⟩ := RResult.bind_eq_ok h
  obtain ⟨a7, h7, h⟩ := RResult.bind_eq_ok h
  obtain ⟨a8, h8, h⟩ := RResult.bind_eq_ok h
  obtain ⟨a9, h9, h⟩ := RResult.bind_eq_ok h
  obtain ⟨a10, h10, h⟩ := RResult.bind_eq_ok h
  cases h
  rfl

theorem preKeySignalMessage_tryFrom_serialized (v : List Nat)
    (m : PreKeySignalMessage) (h : PreKeySignalMessage.tryFrom v = .ok m) :
    m.serialized = v := by
  rw [PreKeySignalMessage.tryFrom] at h
  rcases RResult.if_eq_ok h with ⟨_, h'⟩ | ⟨_, h⟩
  · simp at h'
  · obtain ⟨b0, hb0, h⟩ := RResult.bind_eq_ok h
    rcases RResult.if_eq_ok h with ⟨_, h'⟩ | ⟨_, h⟩
    · simp at h'
    · rcases RResult.if_eq_ok h with ⟨_, h'⟩ | ⟨_, h⟩
      · simp at h'
      · exact preKeySignalMessage_decodeBody_serialized _ _ _ h

theorem senderKeyMessage_decodeBody_serialized (mv : Nat) (v : List Nat)
    (m : SenderKeyMessage)
    (h : SenderKeyMessage.decodeBody mv v = .ok m) : m.serialized = v := by
  rw [SenderKeyMessage.decodeBody] at h
  obtain ⟨a1, h1, h⟩ := RResult.bind_eq_ok h
  obtain ⟨a2, h2, h⟩ := RResult.bind_eq_ok h
  obtain ⟨a3, h3, h⟩ := RResult.bind_eq_ok h
  obtain ⟨a4, h4, h⟩ := RResult.bind_eq_ok h
  obtain ⟨a5, h5, h⟩ := RResult.bind_eq_ok h
  obtain ⟨a6, h6, h⟩ := RResult.bind_eq_ok h
  obtain ⟨a7, h7, h⟩ := RResult.bind_eq_ok h
  obtain ⟨a8, h8, h⟩ := RResult.bind_eq_ok h
  cases h
  rfl

theorem senderKeyMessage_tryFrom_serialized (v : List Nat)
    (m : SenderKeyMessage) (h : SenderKeyMessage.tryFrom v = .ok m) :
    m.serialized = v := by
  rw [SenderKeyMessage.tryFrom] at h
  rcases RResult.if_eq_ok h with ⟨_, h'⟩ | ⟨_, h⟩
  · simp at h'
  · obtain ⟨b0, hb0, h⟩ := RResult.bind_eq_ok h
    rcases RResult.if_eq_ok h with ⟨_, h'⟩ | ⟨_, h⟩
    · simp at h'
    · rcases RResult.if_eq_ok h with ⟨_, h'⟩ | ⟨_, h⟩
      · simp at h'
      · exact senderKeyMessage_decodeBody_serialized _ _ _ h

theorem senderKeyDistributionMessage_decodeBody_serialized (mv : Nat)
    (v : List Nat) (m : SenderKeyDistributionMessage)
    (h : SenderKeyDistributionMessage.decodeBody mv v = .ok m) :
    m.serialized = v := by
  rw [SenderKeyDistributionMessage.decodeBody] at h
  obtain ⟨a1, h1, h⟩ := RResult.bind_eq_ok h
  obtain ⟨a2, h2, h⟩ := RResult.bind_eq_ok h
  obtain ⟨a3, h3, h⟩ := RResult.bind_eq_ok h
  obtain ⟨a4, h4, h⟩ := RResult.bind_eq_ok h
  obtain ⟨a5, h5, h⟩ := RResult.bind_eq_ok h
  obtain ⟨a6, h6, h⟩ := RResult.bind_eq_ok h
  obtain ⟨a7, h7, h⟩ := RResult.bind_eq_ok h
  rcases RResult.if_eq_ok h with ⟨_, h'⟩ | ⟨_, h⟩
  · simp at h'
  · obtain ⟨a8, h8, h⟩ := RResult.bind_eq_ok h
    obtain ⟨a9, h9, h⟩ := RResult.bind_eq_ok h
    cases h
    rfl

theorem senderKeyDistributionMessage_tryFrom_serialized (v : List Nat)
    (m : SenderKeyDistributionMessage)
    (h : SenderKeyDistributionMessage.tryFrom v = .ok m) :
    m.serialized = v := by
  rw [SenderKeyDistributionMessage.tryFrom] at h
  rcases RResult.if_eq_ok h with ⟨_, h'⟩ | ⟨_, h⟩
  · simp at h'
  · obtain ⟨b0, hb0, h⟩ := RResult.bind_eq_ok h
    rcases RResult.if_eq_ok h with ⟨_, h'⟩ | ⟨_, h⟩
    · simp at h'
    · rcases RResult.if_eq_ok h with ⟨_, h'⟩ | ⟨_, h⟩
      · simp at h'
      · exact senderKeyDistributionMessage_decodeBody_serialized _ _ _ h

/-! ## Version classification and minimum length helpers -/

theorem signalMessage_tryFrom_eq (b : Nat) (rest : List Nat)
    (hlen : SignalMessage.MAC_LENGTH + 1 ≤ (b :: rest).length) :
    SignalMessage.tryFrom (b :: rest) =
      if b >>> 4 < CIPHERTEXT_MESSAGE_CURRENT_VERSION then
        .err (.LegacyCiphertextVersion (b >>> 4))
      else if CIPHERTEXT_MESSAGE_CURRENT_VERSION < b >>> 4 then
        .err (.UnrecognizedCiphertextVersion (b >>> 4))
      else SignalMessage.decodeBody (b >>> 4) (b :: rest) := by
  rw [SignalMessage.tryFrom, if_neg (by omega)]
  have hidx : listIndex (b :: rest) 0 = .ok b := by simp [listIndex]
  rw [hidx, RResult.bind_ok]

theorem preKeySignalMessage_tryFrom_eq (b : Nat) (rest : List Nat) :
    PreKeySignalMessage.tryFrom (b :: rest) =
      if b >>> 4 < CIPHERTEXT_MESSAGE_CURRENT_VERSION then
        .err (.LegacyCiphertextVersion (b >>> 4))
      else if CIPHERTEXT_MESSAGE_CURRENT_VERSION < b >>> 4 then
        .err (.UnrecognizedCiphertextVersion (b >>> 4))
      else PreKeySignalMessage.decodeBody (b >>> 4) (b :: rest) := by
  rw [PreKeySignalMessage.tryFrom, if_neg (by simp)]
  have hidx : listIndex (b :: rest) 0 = .ok b := by simp [listIndex]
  rw [hidx, RResult.bind_ok]

theorem senderKeyMessage_tryFrom_eq (b : Nat) (rest : List Nat)
    (hlen : 1 + SIGNATURE_LENGTH ≤ (b :: rest).length) :
    SenderKeyMessage.tryFrom (b :: rest) =
      if b >>> 4 < CIPHERTEXT_MESSAGE_CURRENT_VERSION then
        .err (.LegacyCiphertextVersion (b >>> 4))
      else if CIPHERTEXT_MESSAGE_CURRENT_VERSION < b >>> 4 then
        .err (.UnrecognizedCiphertextVersion (b >>> 4))
      else SenderKeyMessage.decodeBody (b >>> 4) (b :: rest) := by
  rw [SenderKeyMessage.tryFrom, if_neg (by omega)]
  have hidx : listIndex (b :: rest) 0 = .ok b := by simp [listIndex]
  rw [hidx, RResult.bind_ok]

theorem senderKeyDistributionMessage_tryFrom_eq (b : Nat) (rest : List Nat)
    (hlen : 1 + 32 + 32 ≤ (b :: rest).length) :
    SenderKeyDistributionMessage.tryFrom (b :: rest) =
      if b >>> 4 < CIPHERTEXT_MESSAGE_CURRENT_VERSION then
        .err (.LegacyCiphertextVersion (b >>> 4))
      else if CIPHERTEXT_MESSAGE_CURRENT_VERSION < b >>> 4 then
        .err (.UnrecognizedCiphertextVersion (b >>> 4))
      else SenderKeyDistributionMessage.decodeBody (b >>> 4) (b :: rest) := by
  rw [SenderKeyDistributionMessage.tryFrom, if_neg (by omega)]
  have hidx : listIndex (b :: rest) 0 = .ok b := by simp [listIndex]
  rw [hidx, RResult.bind_ok]

theorem signalMessage_tryFrom_short (v : List Nat)
    (h : v.length < SignalMessage.MAC_LENGTH + 1) :
    SignalMessage.tryFrom v = .err (.CiphertextMessageTooShort v.length) := by
  rw [SignalMessage.tryFrom, if_pos h]

theorem preKeySignalMessage_tryFrom_short (v : List Nat) (h : v.length < 1) :
    PreKeySignalMessage.tryFrom v =
      .err (.CiphertextMessageTooShort v.length) := by
  rw [PreKeySignalMessage.tryFrom, if_pos h]

theorem senderKeyMessage_tryFrom_short (v : List Nat)
    (h : v.length < 1 + SIGNATURE_LENGTH) :
    SenderKeyMessage.tryFrom v =
      .err (.CiphertextMessageTooShort v.length) := by
  rw [SenderKeyMessage.tryFrom, if_pos h]

theorem senderKeyDistributionMessage_tryFrom_short (v : List Nat)
    (h : v.length < 1 + 32 + 32) :
    SenderKeyDistributionMessage.tryFrom v =
      .err (.CiphertextMessageTooShort v.length) := by
  rw [SenderKeyDistributionMessage.tryFrom, if_pos h]

/-! ## No-panic helpers -/

theorem RResult.bind_ne_panicked {α β : Type} {x : RResult α}
    {f : α → RResult β} (hx : x ≠ .panicked)
    (hf : ∀ a, f a ≠ .panicked) : (x >>= f) ≠ .panicked := by
  cases x with
  | ok a => simpa using hf a
  | err e => simp
  | panicked => exact absurd rfl hx

theorem RResult.ofExcept_ne_panicked {α : Type}
    (e : Except SignalProtocolError α) : RResult.ofExcept e ≠ .panicked := by
  cases e <;> simp [RResult.ofExcept]

theorem mandatory_ne_panicked {α : Type} (o : Option α) :
    mandatory o ≠ .panicked := by
  cases o <;> simp [mandatory]

theorem signalMessage_decodeBody_ne_panicked (mv : Nat) (v : List Nat)
    (hv : SignalMessage.MAC_LENGTH + 1 ≤ v.length) :
    SignalMessage.decodeBody mv v ≠ .panicked := by
  simp only [SignalMessage.MAC_LENGTH] at hv
  rw [SignalMessage.decodeBody]
  have hsub : subUsize v.length SignalMessage.MAC_LENGTH =
      .ok (v.length - SignalMessage.MAC_LENGTH) := by
    rw [subUsize, if_pos (by simp only [SignalMessage.MAC_LENGTH]; omega)]
  rw [hsub, RResult.bind_ok]
  have hslice : sliceRange v 1 (v.length - SignalMessage.MAC_LENGTH) =
      .ok ((v.take (v.length - SignalMessage.MAC_LENGTH)).drop 1) := by
    rw [sliceRange,
      if_pos ⟨by simp only [SignalMessage.MAC_LENGTH]; omega, by omega⟩]
  rw [hslice, RResult.bind_ok]
  apply RResult.bind_ne_panicked (RResult.ofExcept_ne_panicked _)
  intro p
  apply RResult.bind_ne_panicked (mandatory_ne_panicked _)
  intro srk
  apply RResult.bind_ne_panicked (RResult.ofExcept_ne_panicked _)
  intro k
  apply RResult.bind_ne_panicked (mandatory_ne_panicked _)
  intro c
  apply RResult.bind_ne_panicked (mandatory_ne_panicked _)
  intro ctb
  apply RResult.bind_ne_panicked (RResult.ofExcept_ne_panicked _)
  intro mv2
  simp

theorem signalMessage_tryFrom_ne_panicked (v : List Nat) :
    SignalMessage.tryFrom v ≠ .panicked := by
  by_cases hlen : v.length < SignalMessage.MAC_LENGTH + 1
  · rw [signalMessage_tryFrom_short v hlen]
    simp
  · obtain ⟨b, rest, rfl⟩ : ∃ b rest, v = b :: rest := by
      cases v with
      | nil => simp [SignalMessage.MAC_LENGTH] at hlen
      | cons b rest => exact ⟨b, rest, rfl⟩
    rw [signalMessage_tryFrom_eq b rest (by omega)]
    split
    · simp
    · split
      · simp
      · exact signalMessage_decodeBody_ne_panicked _ _ (by omega)

theorem preKeySignalMessage_decodeBody_ne_panicked (mv : Nat) (v : List Nat)
    (hv : 1 ≤ v.length) :
    PreKeySignalMessage.decodeBody mv v ≠ .panicked := by
  rw [PreKeySignalMessage.decodeBody]
  have hslice : sliceFrom v 1 = .ok (v.drop 1) := by
    rw [sliceFrom, if_pos hv]
  rw [hslice, RResult.bind_ok]
  apply RResult.bind_ne_panicked (RResult.ofExcept_ne_panicked _)
  intro p
  apply RResult.bind_ne_panicked (mandatory_ne_panicked _)
  intro bk
  apply RResult.bind_ne_panicked (mandatory_ne_panicked _)
  intro ik
  apply RResult.bind_ne_panicked (mandatory_ne_panicked _)
  intro msg
  apply RResult.bind_ne_panicked (mandatory_ne_panicked _)
  intro spk
  apply RResult.bind_ne_panicked (RResult.ofExcept_ne_panicked _)
  intro bk2
  apply RResult.bind_ne_panicked (RResult.ofExcept_ne_panicked _)
  intro mv2
  apply RResult.bind_ne_panicked (RResult.ofExcept_ne_panicked _)
  intro ik2
  apply RResult.bind_ne_panicked (signalMessage_tryFrom_ne_panicked _)
  intro inner
  simp

theorem preKeySignalMessage_tryFrom_ne_panicked (v : List Nat) :
    PreKeySignalMessage.tryFrom v ≠ .panicked := by
  cases v with
  | nil =>
    rw [preKeySignalMessage_tryFrom_short [] (by simp)]
    simp
  | cons b rest =>
    rw [preKeySignalMessage_tryFrom_eq b rest]
    split
    · simp
    · split
      · simp
      · exact preKeySignalMessage_decodeBody_ne_panicked _ _ (by simp)

theorem senderKeyMessage_decodeBody_ne_panicked (mv : Nat) (v : List Nat)
    (hv : 1 + SIGNATURE_LENGTH ≤ v.length) :
    SenderKeyMessage.decodeBody mv v ≠ .panicked := by
  simp only [SIGNATURE_LENGTH] at hv
  rw [SenderKeyMessage.decodeBody]
  have hsub : subUsize v.length SIGNATURE_LENGTH =
      .ok (v.length - SIGNATURE_LENGTH) := by
    rw [subUsize, if_pos (by simp only [SIGNATURE_LENGTH]; omega)]
  rw [hsub, RResult.bind_ok]
  have hslice : sliceRange v 1 (v.length - SIGNATURE_LENGTH) =
      .ok ((v.take (v.length - SIGNATURE_LENGTH)).drop 1) := by
    rw [sliceRange, if_pos ⟨by simp only [SIGNATURE_LENGTH]; omega, by omega⟩]
  rw [hslice, RResult.bind_ok]
  apply RResult.bind_ne_panicked (RResult.ofExcept_ne_panicked _)
  intro p
  apply RResult.bind_ne_panicked (mandatory_ne_panicked _)
  intro did
  apply RResult.bind_ne_panicked (mandatory_ne_panicked _)
  intro cid
  apply RResult.bind_ne_panicked (mandatory_ne_panicked _)
  intro iter
  apply RResult.bind_ne_panicked (mandatory_ne_panicked _)
  intro ctb
  apply RResult.bind_ne_panicked (RResult.ofExcept_ne_panicked _)
  intro mv2
  simp

theorem senderKeyMessage_tryFrom_ne_panicked (v : List Nat) :
    SenderKeyMessage.tryFrom v ≠ .panicked := by
  by_cases hlen : v.length < 1 + SIGNATURE_LENGTH
  · rw [senderKeyMessage_tryFrom_short v hlen]
    simp
  · obtain ⟨b, rest, rfl⟩ : ∃ b rest, v = b :: rest := by
      cases v with
      | nil => simp [SIGNATURE_LENGTH] at hlen
      | cons b rest => exact ⟨b, rest, rfl⟩
    rw [senderKeyMessage_tryFrom_eq b rest (by omega)]
    split
    · simp
    · split
      · simp
      · exact senderKeyMessage_decodeBody_ne_panicked _ _ (by omega)

theorem senderKeyDistributionMessage_decodeBody_ne_panicked (mv : Nat)
    (v : List Nat) (hv : 1 ≤ v.length) :
    SenderKeyDistributionMessage.decodeBody mv v ≠ .panicked := by
  rw [SenderKeyDistributionMessage.decodeBody]
  have hslice : sliceFrom v 1 = .ok (v.drop 1) := by
    rw [sliceFrom, if_pos hv]
  rw [hslice, RResult.bind_ok]
  apply RResult.bind_ne_panicked (RResult.ofExcept_ne_panicked _)
  intro p
  apply RResult.bind_ne_panicked (mandatory_ne_panicked _)
  intro did
  apply RResult.bind_ne_panicked (mandatory_ne_panicked _)
  intro cid
  apply RResult.bind_ne_panicked (mandatory_ne_panicked _)
  intro iter
  apply RResult.bind_ne_panicked (mandatory_ne_panicked _)
  intro ck
  apply RResult.bind_ne_panicked (mandatory_ne_panicked _)
  intro skb
  split
  · simp
  · apply RResult.bind_ne_panicked (RResult.ofExcept_ne_panicked _)
    intro sk
    apply RResult.bind_ne_panicked (RResult.ofExcept_ne_panicked _)
    intro mv2
    simp

theorem senderKeyDistributionMessage_tryFrom_ne_panicked (v : List Nat) :
    SenderKeyDistributionMessage.tryFrom v ≠ .panicked := by
  by_cases hlen : v.length < 1 + 32 + 32
  · rw [senderKeyDistributionMessage_tryFrom_short v hlen]
    simp
  · obtain ⟨b, rest, rfl⟩ : ∃ b rest, v = b :: rest := by
      cases v with
      | nil => simp at hlen
      | cons b rest => exact ⟨b, rest, rfl⟩
    rw [senderKeyDistributionMessage_tryFrom_eq b rest (by omega)]
    split
    · simp
    · split
      · simp
      · exact senderKeyDistributionMessage_decodeBody_ne_panicked _ _ (by simp)

/-! ## Constructor shape and verification helpers -/

theorem signalMessage_new_eq_any (mv : MessageVersion) (mac_key : List Nat)
    (rk : PublicKey) (c pc : Nat) (ct : List Nat) (sik rik : IdentityKey)
    (hk : mac_key.length = 32) :
    SignalMessage.new mv mac_key rk c pc ct sik rik =
      .ok { message_version := mv, sender_ratchet_key := rk, counter := c,
            previous_counter := pc, ciphertext := ct,
            serialized :=
              ((((mv.toU8 &&& 15) <<< 4) |||
                  CIPHERTEXT_MESSAGE_CURRENT_VERSION) ::
                ProtoSignalMessage.encode
                  { ratchet_key := some rk.serialize, counter := some c,
                    previous_counter := some pc, ciphertext := some ct }) ++
                (hmacSha256 mac_key (sik.serialize ++ rik.serialize ++
                  ((((mv.toU8 &&& 15) <<< 4) |||
                      CIPHERTEXT_MESSAGE_CURRENT_VERSION) ::
                    ProtoSignalMessage.encode
                      { ratchet_key := some rk.serialize, counter := some c,
                        previous_counter := some pc,
                        ciphertext := some ct }))).take
                  SignalMessage.MAC_LENGTH } := by
  simp only [SignalMessage.new, computeMac_ok _ _ _ _ hk]

theorem signalMessage_new_badkey (mv : MessageVersion) (mac_key : List Nat)
    (rk : PublicKey) (c pc : Nat) (ct : List Nat) (sik rik : IdentityKey)
    (hk : mac_key.length ≠ 32) :
    SignalMessage.new mv mac_key rk c pc ct sik rik =
      .error (.InvalidMacKeyLength mac_key.length) := by
  simp only [SignalMessage.new, computeMac, hk]
  rw [if_pos (by exact hk)]

theorem verify_mac_eq_ok (m : SignalMessage) (sik rik : IdentityKey)
    (key : List Nat) (hk : key.length = 32) :
    m.verify_mac sik rik key =
      .ok (((hmacSha256 key (sik.serialize ++ rik.serialize ++
          m.serialized.take
            (m.serialized.length - SignalMessage.MAC_LENGTH))).take
          SignalMessage.MAC_LENGTH) ==
        m.serialized.drop (m.serialized.length - SignalMessage.MAC_LENGTH)) := by
  rw [SignalMessage.verify_mac, computeMac_ok _ _ _ _ hk]

theorem verify_mac_badkey (m : SignalMessage) (sik rik : IdentityKey)
    (key : List Nat) (hk : key.length ≠ 32) :
    m.verify_mac sik rik key = .error (.InvalidMacKeyLength key.length) := by
  rw [SignalMessage.verify_mac]
  simp [computeMac, hk]

theorem verify_mac_as_map (m : SignalMessage) (sik rik : IdentityKey)
    (key : List Nat) :
    m.verify_mac sik rik key =
      (computeMac sik rik key (m.serialized.take
          (m.serialized.length - SignalMessage.MAC_LENGTH))).map
        (fun tag => tag ==
          m.serialized.drop (m.serialized.length - SignalMessage.MAC_LENGTH)) := by
  rw [SignalMessage.verify_mac]
  cases computeMac sik rik key (m.serialized.take
      (m.serialized.length - SignalMessage.MAC_LENGTH)) <;> rfl

theorem verify_mac_congr (m m' : SignalMessage) (sik rik : IdentityKey)
    (key : List Nat) (h : m.serialized = m'.serialized) :
    m.verify_mac sik rik key = m'.verify_mac sik rik key := by
  rw [SignalMessage.verify_mac, SignalMessage.verify_mac, h]

theorem verify_signature_congr (m m' : SenderKeyMessage) (k : PublicKey)
    (h : m.serialized = m'.serialized) :
    m.verify_signature k = m'.verify_signature k := by
  rw [SenderKeyMessage.verify_signature, SenderKeyMessage.verify_signature, h]

theorem take_append_tag (pre tag : List Nat) (h : tag.length = 8) :
    (pre ++ tag).take ((pre ++ tag).length - 8) = pre := by
  have hl : (pre ++ tag).length - 8 = pre.length := by simp [h]
  rw [hl, List.take_left]

/-! ## Claim theorems -/

/-- C5: for every message kind and every input buffer that passes the
minimum-length check, parsing classifies the high nibble of the first byte:
below the current version (`CIPHERTEXT_MESSAGE_CURRENT_VERSION = 3`) it is the
`LegacyCiphertextVersion` error carrying that nibble, above it the
`UnrecognizedCiphertextVersion` error carrying that nibble, and only a nibble
equal to the current version proceeds to body decoding. -/
theorem claim_C5_version_classification (b : Nat) (rest : List Nat) :
    (SignalMessage.MAC_LENGTH + 1 ≤ (b :: rest).length →
      (b >>> 4 < CIPHERTEXT_MESSAGE_CURRENT_VERSION →
        SignalMessage.tryFrom (b :: rest) =
          .err (.LegacyCiphertextVersion (b >>> 4))) ∧
      (CIPHERTEXT_MESSAGE_CURRENT_VERSION < b >>> 4 →
        SignalMessage.tryFrom (b :: rest) =
          .err (.UnrecognizedCiphertextVersion (b >>> 4))) ∧
      (b >>> 4 = CIPHERTEXT_MESSAGE_CURRENT_VERSION →
        SignalMessage.tryFrom (b :: rest) =
          SignalMessage.decodeBody (b >>> 4) (b :: rest))) ∧
    ((b >>> 4 < CIPHERTEXT_MESSAGE_CURRENT_VERSION →
        PreKeySignalMessage.tryFrom (b :: rest) =
          .err (.LegacyCiphertextVersion (b >>> 4))) ∧
      (CIPHERTEXT_MESSAGE_CURRENT_VERSION < b >>> 4 →
        PreKeySignalMessage.tryFrom (b :: rest) =
          .err (.UnrecognizedCiphertextVersion (b >>> 4))) ∧
      (b >>> 4 = CIPHERTEXT_MESSAGE_CURRENT_VERSION →
        PreKeySignalMessage.tryFrom (b :: rest) =
          PreKeySignalMessage.decodeBody (b >>> 4) (b :: rest))) ∧
    (1 + SIGNATURE_LENGTH ≤ (b :: rest).length →
      (b >>> 4 < CIPHERTEXT_MESSAGE_CURRENT_VERSION →
        SenderKeyMessage.tryFrom (b :: rest) =
          .err (.LegacyCiphertextVersion (b >>> 4))) ∧
      (CIPHERTEXT_MESSAGE_CURRENT_VERSION < b >>> 4 →
        SenderKeyMessage.tryFrom (b :: rest) =
          .err (.UnrecognizedCiphertextVersion (b >>> 4))) ∧
      (b >>> 4 = CIPHERTEXT_MESSAGE_CURRENT_VERSION →
        SenderKeyMessage.tryFrom (b :: rest) =
          SenderKeyMessage.decodeBody (b >>> 4) (b :: rest))) ∧
    (1 + 32 + 32 ≤ (b :: rest).length →
      (b >>> 4 < CIPHERTEXT_MESSAGE_CURRENT_VERSION →
        SenderKeyDistributionMessage.tryFrom (b :: rest) =
          .err (.LegacyCiphertextVersion (b >>> 4))) ∧
      (CIPHERTEXT_MESSAGE_CURRENT_VERSION < b >>> 4 →
        SenderKeyDistributionMessage.tryFrom (b :: rest) =
          .err (.UnrecognizedCiphertextVersion (b >>> 4))) ∧
      (b >>> 4 = CIPHERTEXT_MESSAGE_CURRENT_VERSION →
        SenderKeyDistributionMessage.tryFrom (b :: rest) =
          SenderKeyDistributionMessage.decodeBody (b >>> 4) (b :: rest))) := by
  refine ⟨fun hlen => ?_, ?_, fun hlen => ?_, fun hlen => ?_⟩
  · rw [signalMessage_tryFrom_eq b rest hlen]
    refine ⟨fun h => ?_, fun h => ?_, fun h => ?_⟩
    · rw [if_pos h]
    · rw [if_neg (by omega), if_pos h]
    · rw [if_neg (by omega), if_neg (by omega)]
  · rw [preKeySignalMessage_tryFrom_eq b rest]
    refine ⟨fun h => ?_, fun h => ?_, fun h => ?_⟩
    · rw [if_pos h]
    · rw [if_neg (by omega), if_pos h]
    · rw [if_neg (by omega), if_neg (by omega)]
  · rw [senderKeyMessage_tryFrom_eq b rest hlen]
    refine ⟨fun h => ?_, fun h => ?_, fun h => ?_⟩
    · rw [if_pos h]
    · rw [if_neg (by omega), if_pos h]
    · rw [if_neg (by omega), if_neg (by omega)]
  · rw [senderKeyDistributionMessage_tryFrom_eq b rest hlen]
    refine ⟨fun h => ?_, fun h => ?_, fun h => ?_⟩
    · rw [if_pos h]
    · rw [if_neg (by omega), if_pos h]
    · rw [if_neg (by omega), if_neg (by omega)]

/-- C6: the four parse functions evaluated on buffers whose version nibble is
2 (the legacy value) all yield the *identical* error value
`LegacyCiphertextVersion 2`, carrying only the offending nibble: the errors
produced by `protocol.rs` carry no tag for which message type the version was
legacy for, although `error.rs` declares
`LegacyCiphertextVersion(u8, MessageVersionType)` with such a tag (a
construction that does not even type-check against the one-argument call
sites in `protocol.rs`). -/
theorem claim_C6_kind_tag_missing :
    SignalMessage.tryFrom (35 :: List.replicate 8 0) =
      .err (.LegacyCiphertextVersion 2) ∧
    PreKeySignalMessage.tryFrom (35 :: List.replicate 8 0) =
      .err (.LegacyCiphertextVersion 2) ∧
    SenderKeyMessage.tryFrom (35 :: List.replicate 64 0) =
      .err (.LegacyCiphertextVersion 2) ∧
    SenderKeyDistributionMessage.tryFrom (35 :: List.replicate 64 0) =
      .err (.LegacyCiphertextVersion 2) := by
  decide

/-- C8: a buffer shorter than its kind's structural minimum — 9 bytes for the
pairwise message (`MAC_LENGTH + 1`), 1 byte for the pre-key message,
`1 + SIGNATURE_LENGTH` bytes for the sender-key message, and `1 + 32 + 32`
bytes for the distribution message — parses to `CiphertextMessageTooShort`
carrying the buffer's length, for every buffer content (hence before any
other check). -/
theorem claim_C8_minimum_length (v : List Nat) :
    (v.length < SignalMessage.MAC_LENGTH + 1 →
      SignalMessage.tryFrom v = .err (.CiphertextMessageTooShort v.length)) ∧
    (v.length < 1 →
      PreKeySignalMessage.tryFrom v =
        .err (.CiphertextMessageTooShort v.length)) ∧
    (v.length < 1 + SIGNATURE_LENGTH →
      SenderKeyMessage.tryFrom v =
        .err (.CiphertextMessageTooShort v.length)) ∧
    (v.length < 1 + 32 + 32 →
      SenderKeyDistributionMessage.tryFrom v =
        .err (.CiphertextMessageTooShort v.length)) :=
  ⟨signalMessage_tryFrom_short v, preKeySignalMessage_tryFrom_short v,
    senderKeyMessage_tryFrom_short v,
    senderKeyDistributionMessage_tryFrom_short v⟩

/-- C9: every parse function is total and never panics on any input byte
string: all indexing and slicing of the parse paths goes through checked
operations whose out-of-bounds outcome is the distinguished `panicked`
result, and no input reaches it — the result is always a parsed message or a
specific error. -/
theorem claim_C9_total_no_panic (v : List Nat) :
    SignalMessage.tryFrom v ≠ .panicked ∧
    PreKeySignalMessage.tryFrom v ≠ .panicked ∧
    SenderKeyMessage.tryFrom v ≠ .panicked ∧
    SenderKeyDistributionMessage.tryFrom v ≠ .panicked :=
  ⟨signalMessage_tryFrom_ne_panicked v, preKeySignalMessage_tryFrom_ne_panicked v,
    senderKeyMessage_tryFrom_ne_panicked v,
    senderKeyDistributionMessage_tryFrom_ne_panicked v⟩

/-- C3: for every 32-byte MAC key, identity keys and message bytes,
`compute_mac` returns the first 8 bytes of the keyed HMAC over
`serialize(sender identity public key) || serialize(receiver identity public
key) || message_bytes`; and the serialized form produced by `SignalMessage::new`
is exactly its leading bytes followed by that 8-byte tag computed over them. -/
theorem claim_C3_mac_construction (mv : MessageVersion) (mac_key : List Nat)
    (rk : PublicKey) (c pc : Nat) (ct message : List Nat)
    (sik rik : IdentityKey) (hk : mac_key.length = 32) :
    computeMac sik rik mac_key message =
      .ok ((hmacSha256 mac_key
        (sik.serialize ++ rik.serialize ++ message)).take 8) ∧
    ∃ m, SignalMessage.new mv mac_key rk c pc ct sik rik = .ok m ∧
      m.serialized =
        m.serialized.take (m.serialized.length - 8) ++
          (hmacSha256 mac_key (sik.serialize ++ rik.serialize ++
            m.serialized.take (m.serialized.length - 8))).take 8 := by
  constructor
  · simpa [SignalMessage.MAC_LENGTH] using computeMac_ok sik rik mac_key message hk
  · refine ⟨_, signalMessage_new_eq_any mv mac_key rk c pc ct sik rik hk, ?_⟩
    dsimp only
    simp only [SignalMessage.MAC_LENGTH]
    rw [take_append_tag _ _ (by simp [hmacSha256_length])]

/-- C4: with a 32-byte key, `verify_mac` returns `Ok(true)` exactly when the
tag recomputed over the stored bytes minus the trailing 8 agrees with the
stored trailing tag and `Ok(false)` (not an error) when it disagrees; with a
key of any other length it returns the `InvalidMacKeyLength` error carrying
that length instead of a boolean.  (The source compares with
`subtle::ConstantTimeEq`; the comparison's value is modelled, its timing is
not.) -/
theorem claim_C4_verify_mac_outcomes (m m2 : SignalMessage)
    (sik rik sik2 rik2 : IdentityKey) (key key2 : List Nat)
    (hk : key.length = 32) (hk2 : key2.length ≠ 32) :
    ((hmacSha256 key (sik.serialize ++ rik.serialize ++
        m.serialized.take (m.serialized.length - 8))).take 8 =
          m.serialized.drop (m.serialized.length - 8) →
      m.verify_mac sik rik key = .ok true) ∧
    ((hmacSha256 key (sik.serialize ++ rik.serialize ++
        m.serialized.take (m.serialized.length - 8))).take 8 ≠
          m.serialized.drop (m.serialized.length - 8) →
      m.verify_mac sik rik key = .ok false) ∧
    m2.verify_mac sik2 rik2 key2 = .error (.InvalidMacKeyLength key2.length) := by
  refine ⟨fun h => ?_, fun h => ?_, verify_mac_badkey m2 sik2 rik2 key2 hk2⟩
  · rw [verify_mac_eq_ok m sik rik key hk]
    simp only [SignalMessage.MAC_LENGTH]
    rw [h]
    simp
  · rw [verify_mac_eq_ok m sik rik key hk]
    simp only [SignalMessage.MAC_LENGTH]
    simp only [List.append_assoc] at h
    simp [h]

/-- C7: the first byte of every serialized form produced by construction is
`((logical_version &&& 0xF) <<< 4) ||| CIPHERTEXT_MESSAGE_CURRENT_VERSION`:
the logical version in the high nibble (for the two kinds whose constructor
takes a version argument, whatever that version is; for the two kinds that
fix it, their stored version) and the current version constant in the low
nibble. -/
theorem claim_C7_version_byte_packing (mv : MessageVersion)
    (mac_key ct ck : List Nat) (rk bk skpub : PublicKey)
    (sik rik ikpk : IdentityKey) (inner : SignalMessage)
    (c pc reg spkid cid iter cid2 iter2 : Nat) (pkid : Option Nat)
    (did did2 : Uuid) (skpriv : PrivateKey) (hk : mac_key.length = 32) :
    (∀ m, SignalMessage.new mv mac_key rk c pc ct sik rik = .ok m →
      m.serialized.head? =
        some (((mv.toU8 &&& 15) <<< 4) ||| CIPHERTEXT_MESSAGE_CURRENT_VERSION)) ∧
    (∀ p, PreKeySignalMessage.new mv reg pkid spkid bk ikpk inner = .ok p →
      p.serialized.head? =
        some (((mv.toU8 &&& 15) <<< 4) ||| CIPHERTEXT_MESSAGE_CURRENT_VERSION)) ∧
    (∀ g, SenderKeyMessage.new did cid iter ct skpriv = .ok g →
      g.serialized.head? =
        some (((g.message_version.toU8 &&& 15) <<< 4) |||
          CIPHERTEXT_MESSAGE_CURRENT_VERSION)) ∧
    (∀ d, SenderKeyDistributionMessage.new did2 cid2 iter2 ck skpub = .ok d →
      d.serialized.head? =
        some (((d.message_version.toU8 &&& 15) <<< 4) |||
          CIPHERTEXT_MESSAGE_CURRENT_VERSION)) := by
  refine ⟨fun m h => ?_, fun p h => ?_, fun g h => ?_, fun d h => ?_⟩
  · rw [signalMessage_new_eq_any mv mac_key rk c pc ct sik rik hk] at h
    cases h
    simp
  · simp only [PreKeySignalMessage.new] at h
    cases h
    simp
  · rw [senderKeyMessage_new_eq did cid iter ct skpriv] at h
    cases h
    simp only [MessageVersion.toU8, List.cons_append, List.head?_cons]
    decide
  · rw [senderKeyDistributionMessage_new_eq did2 cid2 iter2 ck skpub] at h
    cases h
    simp only [MessageVersion.toU8, List.head?_cons]
    decide

/-- C1 counterexample: two valid field combinations the constructors accept
(`Ok`) whose serialized bytes do *not* parse back: a pairwise message
constructed with the legacy `Version2` (its version nibble 2 is rejected as
`LegacyCiphertextVersion`), and a distribution message constructed with a
31-byte chain key (rejected as `InvalidProtobufEncoding` by the parser's
fixed-length re-validation, which the constructor does not perform). -/
theorem claim_C1_roundtrip_counterexample :
    (match SignalMessage.new .version2 (List.replicate 32 0)
        ⟨List.replicate 32 1⟩ 42 41 [1, 2, 3] ⟨⟨List.replicate 32 2⟩⟩
        ⟨⟨List.replicate 32 3⟩⟩ with
      | .ok m => SignalMessage.tryFrom m.serialized
      | .error _ => .panicked) = .err (.LegacyCiphertextVersion 2) ∧
    (match SenderKeyDistributionMessage.new ⟨List.replicate 16 9⟩ 5 6
        (List.replicate 31 0) ⟨List.replicate 32 1⟩ with
      | .ok d => SenderKeyDistributionMessage.tryFrom d.serialized
      | .error _ => .panicked) = .err .InvalidProtobufEncoding := by
  constructor
  · decide
  · decide

/-- C1 (amended): for every valid combination of constructor fields whose
message version is the current version and whose fixed-length fields have the
lengths the parser re-validates (32-byte chain key; u32-ranged integer
fields; well-formed keys and UUID), parsing the serialized bytes of the
constructed message succeeds and yields the constructed message itself,
field-for-field and byte-for-byte on the cached serialized form. -/
theorem claim_C1_roundtrip_amended (mac_key ct ck : List Nat)
    (rk bk skpub : PublicKey) (sik rik ikpk : IdentityKey)
    (c pc reg spkid cid iter cid2 iter2 : Nat) (pkid : Option Nat)
    (did did2 : Uuid) (skpriv : PrivateKey)
    (hmk : mac_key.length = 32) (hrk : rk.keyData.length = 32)
    (hc : c < 2 ^ 32) (hpc : pc < 2 ^ 32) (hreg : reg < 2 ^ 32)
    (hpkid : pkid.getD 0 < 2 ^ 32) (hspk : spkid < 2 ^ 32)
    (hbk : bk.keyData.length = 32)
    (hikpk : ikpk.public_key.keyData.length = 32)
    (hdid : did.uuidBytes.length = 16) (hcid : cid < 2 ^ 32)
    (hiter : iter < 2 ^ 32) (hdid2 : did2.uuidBytes.length = 16)
    (hcid2 : cid2 < 2 ^ 32) (hiter2 : iter2 < 2 ^ 32)
    (hck : ck.length = 32) (hsk : skpub.keyData.length = 32) :
    (∃ m, SignalMessage.new .version3 mac_key rk c pc ct sik rik = .ok m ∧
      SignalMessage.tryFrom m.serialized = .ok m) ∧
    (∀ inner,
      SignalMessage.new .version3 mac_key rk c pc ct sik rik = .ok inner →
      ∃ p, PreKeySignalMessage.new .version3 reg pkid spkid bk ikpk inner =
          .ok p ∧
        PreKeySignalMessage.tryFrom p.serialized = .ok p) ∧
    (∃ g, SenderKeyMessage.new did cid iter ct skpriv = .ok g ∧
      SenderKeyMessage.tryFrom g.serialized = .ok g) ∧
    (∃ d, SenderKeyDistributionMessage.new did2 cid2 iter2 ck skpub = .ok d ∧
      SenderKeyDistributionMessage.tryFrom d.serialized = .ok d) := by
  refine ⟨signalMessage_roundtrip mac_key rk c pc ct sik rik hmk hrk hc hpc,
    fun inner hinner => ?_,
    senderKeyMessage_roundtrip did cid iter ct skpriv hdid hcid hiter,
    senderKeyDistributionMessage_roundtrip did2 cid2 iter2 ck skpub hdid2
      hcid2 hiter2 hck hsk⟩
  exact preKeySignalMessage_roundtrip reg pkid spkid bk ikpk inner hreg hpkid
    hspk hbk hikpk
    (signalMessage_parse_serialized mac_key rk c pc ct sik rik inner hmk hrk
      hc hpc hinner)

set_option maxRecDepth 1000000 in
/-- C1 witness: the amended round-trip at concrete inputs (the constant keys
and counters of the repository's own tests). -/
theorem claim_C1_roundtrip_witness :
    (∃ m, SignalMessage.new .version3 (List.replicate 32 0)
        ⟨List.replicate 32 1⟩ 42 41 [1, 2, 3] ⟨⟨List.replicate 32 2⟩⟩
        ⟨⟨List.replicate 32 3⟩⟩ = .ok m ∧
      SignalMessage.tryFrom m.serialized = .ok m) ∧
    (∀ inner,
      SignalMessage.new .version3 (List.replicate 32 0)
        ⟨List.replicate 32 1⟩ 42 41 [1, 2, 3] ⟨⟨List.replicate 32 2⟩⟩
        ⟨⟨List.replicate 32 3⟩⟩ = .ok inner →
      ∃ p, PreKeySignalMessage.new .version3 365 none 97
          ⟨List.replicate 32 4⟩ ⟨⟨List.replicate 32 5⟩⟩ inner = .ok p ∧
        PreKeySignalMessage.tryFrom p.serialized = .ok p) ∧
    (∃ g, SenderKeyMessage.new ⟨List.replicate 16 9⟩ 42 7 [1, 2, 3] ⟨77⟩ =
        .ok g ∧
      SenderKeyMessage.tryFrom g.serialized = .ok g) ∧
    (∃ d, SenderKeyDistributionMessage.new ⟨List.replicate 16 8⟩ 1 2
        (List.replicate 32 4) ⟨List.replicate 32 1⟩ = .ok d ∧
      SenderKeyDistributionMessage.tryFrom d.serialized = .ok d) :=
  claim_C1_roundtrip_amended _ _ _ _ _ _ _ _ _ _ _ _ _ _ _ _ _ _ _ _ _
    (by decide) (by decide) (by decide) (by decide) (by decide) (by decide)
    (by decide) (by decide) (by decide) (by decide) (by decide) (by decide)
    (by decide) (by decide) (by decide) (by decide) (by decide)

/-- C2: MAC and signature verification operate only on the stored
`serialized` bytes: the parse functions retain the exact input slice as
`serialized`; `verify_mac` is the comparison of the tag recomputed over
`serialized` minus its trailing `MAC_LENGTH` bytes against those trailing
stored bytes; `verify_signature` checks the trailing `SIGNATURE_LENGTH`
stored bytes against the preceding stored bytes; and two messages with equal
`serialized` verify identically whatever their parsed fields are (nothing is
re-encoded from the fields). -/
theorem claim_C2_auth_on_stored_bytes (v w : List Nat)
    (m m2 : SignalMessage) (g g2 : SenderKeyMessage)
    (sik rik : IdentityKey) (key : List Nat) (pk : PublicKey)
    (hv : SignalMessage.tryFrom v = .ok m)
    (hw : SenderKeyMessage.tryFrom w = .ok g)
    (hm2 : m.serialized = m2.serialized)
    (hg2 : g.serialized = g2.serialized) :
    m.serialized = v ∧
    g.serialized = w ∧
    m.verify_mac sik rik key =
      (computeMac sik rik key
        (m.serialized.take
          (m.serialized.length - SignalMessage.MAC_LENGTH))).map
        (fun tag => tag ==
          m.serialized.drop (m.serialized.length - SignalMessage.MAC_LENGTH)) ∧
    m.verify_mac sik rik key = m2.verify_mac sik rik key ∧
    g.verify_signature pk =
      (if verifySig pk
          (g.serialized.take (g.serialized.length - SIGNATURE_LENGTH))
          (g.serialized.drop (g.serialized.length - SIGNATURE_LENGTH)) then
        .ok ()
      else .error .SignatureValidationFailed) ∧
    g.verify_signature pk = g2.verify_signature pk :=
  ⟨signalMessage_tryFrom_serialized v m hv,
   senderKeyMessage_tryFrom_serialized w g hw,
   verify_mac_as_map m sik rik key,
   verify_mac_congr m m2 sik rik key hm2,
   rfl,
   verify_signature_congr g g2 pk hg2⟩

set_option maxRecDepth 1000000 in
/-- C2 witness: the stored-bytes discipline at the concrete parsed messages
`wSigMsg` and `wSkmMsg`. -/
theorem claim_C2_witness :
    wSigMsg.serialized = wSigBytes ∧
    wSkmMsg.serialized = wSkmBytes ∧
    wSigMsg.verify_mac ⟨⟨List.replicate 32 2⟩⟩ ⟨⟨List.replicate 32 3⟩⟩
        (List.replicate 32 0) =
      (computeMac ⟨⟨List.replicate 32 2⟩⟩ ⟨⟨List.replicate 32 3⟩⟩
        (List.replicate 32 0)
        (wSigMsg.serialized.take
          (wSigMsg.serialized.length - SignalMessage.MAC_LENGTH))).map
        (fun tag => tag ==
          wSigMsg.serialized.drop
            (wSigMsg.serialized.length - SignalMessage.MAC_LENGTH)) ∧
    wSigMsg.verify_mac ⟨⟨List.replicate 32 2⟩⟩ ⟨⟨List.replicate 32 3⟩⟩
        (List.replicate 32 0) =
      wSigMsg.verify_mac ⟨⟨List.replicate 32 2⟩⟩ ⟨⟨List.replicate 32 3⟩⟩
        (List.replicate 32 0) ∧
    wSkmMsg.verify_signature ⟨List.replicate 32 1⟩ =
      (if verifySig ⟨List.replicate 32 1⟩
          (wSkmMsg.serialized.take
            (wSkmMsg.serialized.length - SIGNATURE_LENGTH))
          (wSkmMsg.serialized.drop
            (wSkmMsg.serialized.length - SIGNATURE_LENGTH)) then
        .ok ()
      else .error .SignatureValidationFailed) ∧
    wSkmMsg.verify_signature ⟨List.replicate 32 1⟩ =
      wSkmMsg.verify_signature ⟨List.replicate 32 1⟩ :=
  claim_C2_auth_on_stored_bytes wSigBytes wSkmBytes wSigMsg wSigMsg wSkmMsg
    wSkmMsg _ _ _ _ (by decide) (by decide) rfl rfl

set_option maxRecDepth 1000000 in
/-- C3 witness: the MAC formula at a concrete key, identity keys and
message. -/
theorem claim_C3_witness :
    computeMac ⟨⟨List.replicate 32 2⟩⟩ ⟨⟨List.replicate 32 3⟩⟩
        (List.replicate 32 0) [7, 8] =
      .ok ((hmacSha256 (List.replicate 32 0)
        (IdentityKey.serialize ⟨⟨List.replicate 32 2⟩⟩ ++
          IdentityKey.serialize ⟨⟨List.replicate 32 3⟩⟩ ++ [7, 8])).take 8) ∧
    ∃ m, SignalMessage.new .version3 (List.replicate 32 0)
        ⟨List.replicate 32 1⟩ 42 41 [1, 2, 3] ⟨⟨List.replicate 32 2⟩⟩
        ⟨⟨List.replicate 32 3⟩⟩ = .ok m ∧
      m.serialized =
        m.serialized.take (m.serialized.length - 8) ++
          (hmacSha256 (List.replicate 32 0)
            (IdentityKey.serialize ⟨⟨List.replicate 32 2⟩⟩ ++
              IdentityKey.serialize ⟨⟨List.replicate 32 3⟩⟩ ++
              m.serialized.take (m.serialized.length - 8))).take 8 :=
  claim_C3_mac_construction .version3 (List.replicate 32 0)
    ⟨List.replicate 32 1⟩ 42 41 [1, 2, 3] [7, 8] ⟨⟨List.replicate 32 2⟩⟩
    ⟨⟨List.replicate 32 3⟩⟩ (by decide)

set_option maxRecDepth 1000000 in
/-- C4 witness: the three `verify_mac` outcomes at the concrete message
`wSigMsg`, with a 32-byte and a 31-byte key. -/
theorem claim_C4_witness :
    ((hmacSha256 (List.replicate 32 0)
        (IdentityKey.serialize ⟨⟨List.replicate 32 2⟩⟩ ++
          IdentityKey.serialize ⟨⟨List.replicate 32 3⟩⟩ ++
          wSigMsg.serialized.take (wSigMsg.serialized.length - 8))).take 8 =
          wSigMsg.serialized.drop (wSigMsg.serialized.length - 8) →
      wSigMsg.verify_mac ⟨⟨List.replicate 32 2⟩⟩ ⟨⟨List.replicate 32 3⟩⟩
        (List.replicate 32 0) = .ok true) ∧
    ((hmacSha256 (List.replicate 32 0)
        (IdentityKey.serialize ⟨⟨List.replicate 32 2⟩⟩ ++
          IdentityKey.serialize ⟨⟨List.replicate 32 3⟩⟩ ++
          wSigMsg.serialized.take (wSigMsg.serialized.length - 8))).take 8 ≠
          wSigMsg.serialized.drop (wSigMsg.serialized.length - 8) →
      wSigMsg.verify_mac ⟨⟨List.replicate 32 2⟩⟩ ⟨⟨List.replicate 32 3⟩⟩
        (List.replicate 32 0) = .ok false) ∧
    wSigMsg.verify_mac ⟨⟨List.replicate 32 2⟩⟩ ⟨⟨List.replicate 32 3⟩⟩
        (List.replicate 31 0) =
      .error (.InvalidMacKeyLength (List.replicate 31 0).length) :=
  claim_C4_verify_mac_outcomes wSigMsg wSigMsg _ _ _ _ _ _ (by decide)
    (by decide)

set_option maxRecDepth 1000000 in
/-- C7 witness: the version-byte packing at concrete constructor inputs. -/
theorem claim_C7_witness :
    (∀ m, SignalMessage.new .version3 (List.replicate 32 0)
        ⟨List.replicate 32 1⟩ 42 41 [1, 2, 3] ⟨⟨List.replicate 32 2⟩⟩
        ⟨⟨List.replicate 32 3⟩⟩ = .ok m →
      m.serialized.head? =
        some (((MessageVersion.toU8 .version3 &&& 15) <<< 4) |||
          CIPHERTEXT_MESSAGE_CURRENT_VERSION)) ∧
    (∀ p, PreKeySignalMessage.new .version3 365 none 97
        ⟨List.replicate 32 4⟩ ⟨⟨List.replicate 32 5⟩⟩ wSigMsg = .ok p →
      p.serialized.head? =
        some (((MessageVersion.toU8 .version3 &&& 15) <<< 4) |||
          CIPHERTEXT_MESSAGE_CURRENT_VERSION)) ∧
    (∀ g, SenderKeyMessage.new ⟨List.replicate 16 9⟩ 42 7 [1, 2, 3] ⟨77⟩ =
        .ok g →
      g.serialized.head? =
        some (((g.message_version.toU8 &&& 15) <<< 4) |||
          CIPHERTEXT_MESSAGE_CURRENT_VERSION)) ∧
    (∀ d, SenderKeyDistributionMessage.new ⟨List.replicate 16 8⟩ 1 2
        (List.replicate 32 4) ⟨List.replicate 32 1⟩ = .ok d →
      d.serialized.head? =
        some (((d.message_version.toU8 &&& 15) <<< 4) |||
          CIPHERTEXT_MESSAGE_CURRENT_VERSION)) :=
  claim_C7_version_byte_packing .version3 (List.replicate 32 0) [1, 2, 3]
    (List.replicate 32 4) ⟨List.replicate 32 1⟩ ⟨List.replicate 32 4⟩
    ⟨List.replicate 32 1⟩ ⟨⟨List.replicate 32 2⟩⟩ ⟨⟨List.replicate 32 3⟩⟩
    ⟨⟨List.replicate 32 5⟩⟩ wSigMsg 42 41 365 97 42 7 1 2 none
    ⟨List.replicate 16 9⟩ ⟨List.replicate 16 8⟩ ⟨77⟩ (by decide)

/-- C10: when the decoded pre-key body lacks `registration_id` but every
mandatory field is present and every nested parse succeeds, parsing succeeds
with `registration_id` defaulted to 0; by contrast the absence of any of
`base_key`, `identity_key`, `message` or `signed_pre_key_id` is the
`InvalidProtobufEncoding` error. -/
theorem claim_C10_registration_id_default (b : Nat) (rest : List Nat)
    (proto : ProtoPreKeySignalMessage) (bkB ikB msgB : List Nat) (spk : Nat)
    (bk : PublicKey) (ik : IdentityKey) (inner : SignalMessage)
    (hnib : b >>> 4 = CIPHERTEXT_MESSAGE_CURRENT_VERSION)
    (hdec : ProtoPreKeySignalMessage.decode rest = .ok proto)
    (hreg : proto.registration_id = none)
    (hbk : proto.base_key = some bkB)
    (hik : proto.identity_key = some ikB)
    (hmsg : proto.message = some msgB)
    (hspk : proto.signed_pre_key_id = some spk)
    (hbk2 : PublicKey.decode bkB = .ok bk)
    (hik2 : IdentityKey.decode ikB = .ok ik)
    (hmsg2 : SignalMessage.tryFrom msgB = .ok inner) :
    PreKeySignalMessage.tryFrom (b :: rest) =
      .ok { message_version := .version3, registration_id := 0,
            pre_key_id := proto.pre_key_id, signed_pre_key_id := spk,
            base_key := bk, identity_key := ik, message := inner,
            serialized := b :: rest } ∧
    (∀ (proto2 : ProtoPreKeySignalMessage) (rest2 : List Nat),
      ProtoPreKeySignalMessage.decode rest2 = .ok proto2 →
      (proto2.base_key = none ∨ proto2.identity_key = none ∨
        proto2.message = none ∨ proto2.signed_pre_key_id = none) →
      PreKeySignalMessage.tryFrom (b :: rest2) =
        .err .InvalidProtobufEncoding) := by
  constructor
  · rw [preKeySignalMessage_tryFrom_eq b rest, hnib]
    rw [if_neg (by omega), if_neg (by omega)]
    rw [PreKeySignalMessage.decodeBody]
    have hslice : sliceFrom (b :: rest) 1 = .ok rest := by
      simp [sliceFrom]
    rw [hslice, RResult.bind_ok, hdec]
    simp only [RResult.ofExcept, RResult.bind_ok]
    rw [hbk, hik, hmsg, hspk]
    simp only [mandatory, RResult.bind_ok]
    rw [hbk2, hik2]
    simp only [RResult.ofExcept, RResult.bind_ok, MessageVersion.fromU8,
      CIPHERTEXT_MESSAGE_CURRENT_VERSION]
    norm_num
    rw [hmsg2, RResult.bind_ok, hreg]
    rfl
  · intro proto2 rest2 hdec2 hnone
    rw [preKeySignalMessage_tryFrom_eq b rest2, hnib]
    rw [if_neg (by omega), if_neg (by omega)]
    rw [PreKeySignalMessage.decodeBody]
    have hslice : sliceFrom (b :: rest2) 1 = .ok rest2 := by
      simp [sliceFrom]
    rw [hslice, RResult.bind_ok, hdec2]
    simp only [RResult.ofExcept, RResult.bind_ok]
    cases hbkc : proto2.base_key with
    | none => simp [mandatory]
    | some x =>
      simp only [mandatory, RResult.bind_ok]
      cases hikc : proto2.identity_key with
      | none => simp [mandatory]
      | some y =>
        simp only [mandatory, RResult.bind_ok]
        cases hmsgc : proto2.message with
        | none => simp [mandatory]
        | some z =>
          simp only [mandatory, RResult.bind_ok]
          cases hspkc : proto2.signed_pre_key_id with
          | none => simp [mandatory]
          | some u =>
            rcases hnone with h | h | h | h <;> simp_all

set_option maxRecDepth 1000000 in
/-- C10 witness: the concrete registration-free body `wPkmBody` parses with
`registration_id = 0`, and the mandatory-field contrast instantiated. -/
theorem claim_C10_witness :
    PreKeySignalMessage.tryFrom (51 :: wPkmBody) =
      .ok { message_version := .version3, registration_id := 0,
            pre_key_id := wPkmProto.pre_key_id, signed_pre_key_id := 97,
            base_key := ⟨List.replicate 32 4⟩,
            identity_key := ⟨⟨List.replicate 32 5⟩⟩, message := wSigMsg,
            serialized := 51 :: wPkmBody } ∧
    (∀ (proto2 : ProtoPreKeySignalMessage) (rest2 : List Nat),
      ProtoPreKeySignalMessage.decode rest2 = .ok proto2 →
      (proto2.base_key = none ∨ proto2.identity_key = none ∨
        proto2.message = none ∨ proto2.signed_pre_key_id = none) →
      PreKeySignalMessage.tryFrom (51 :: rest2) =
        .err .InvalidProtobufEncoding) :=
  claim_C10_registration_id_default 51 wPkmBody wPkmProto
    (5 :: List.replicate 32 4) (5 :: List.replicate 32 5) wSigBytes 97
    ⟨List.replicate 32 4⟩ ⟨⟨List.replicate 32 5⟩⟩ wSigMsg (by decide)
    (by rfl) (by decide) (by decide) (by decide) (by decide) (by decide)
    (by rfl) (by rfl) (by decide)

end Libsignal
